import Mathlib

/-!
# UALJs session controller (`src/dist/UALJs.js`)

A shallow embedding of the class `UALJs`: the controller fields, the browser
`localStorage`, the authenticator objects it drives, and the methods `init`,
`attemptSessionLogin`, `loginUser`, `waitForAuthenticatorToLoad`, `logoutUser`
and `clearStorageKeys`.

Conventions of the embedding.

* The clock (`new Date()`) is read as milliseconds since the epoch (`Nat`).
  The time value of a `Date` is an integer number of milliseconds, or no
  number at all for an invalid date.  `getSeconds` and `setSeconds` work on
  local time, through the offsets of the time zone of the host, and
  `setSeconds` clips its result to the range of time values.
* Every call the controller makes on a collaborator (authenticator, user
  callback, console, DOM renderer) is appended to `World.trace`.
* An `async` method runs synchronously up to its first suspension and is
  continued later by the event loop.  `loginUser` is therefore given in two
  halves, `loginUserStart` and `loginUserResume`; `loginUser` is their
  composition, which is what a caller that awaits the promise observes.
* The interval poll of `waitForAuthenticatorToLoad` need not end, so the
  continuation takes a bound on the number of interval ticks it is observed
  for and reports `Outcome.pending` when the promise is still unsettled.
* `getAuthenticators()` belongs to the base class of the external library; its
  two results are fields of the controller.
* Taken as given about the collaborators: `shouldInvalidateAfter()` returns a
  natural number of seconds, the user callback and the `localStorage` methods
  return normally, and `logout()` returns a promise that nobody awaits.  A
  promise of `login` may be rejected with any value, `undefined` and `null`
  included.
-/

namespace UALRenderer

/-! ## JavaScript values that can be thrown -/

/-- Values that reach the `catch (e)` clause of `loginUser` or that settle a
rejected promise. -/
inductive JsValue where
  | undefined
  | null
  | str (s : String)
  | error (message : String) (cause : Option String)
  | typeError (message : String)
  deriving DecidableEq, Repr

/-- Users returned by an authenticator; their structure is not inspected. -/
abbrev User := String

/-- State of a promise returned by an `async` method. -/
inductive Outcome where
  | pending
  | resolved
  | rejected (e : JsValue)
  deriving DecidableEq, Repr

/-- Truthiness of an optional string (`undefined`, `null` and `''` are falsy). -/
def truthy : Option String → Bool
  | some s => s != ""
  | none => false

/-- The JS expression `x || undefined` (also `x || null`) on an optional string. -/
def orUndefined (x : Option String) : Option String :=
  if truthy x then x else none

/-! ## Dates -/

/-- Decimal digit to its character. -/
def digitToChar (d : Nat) : Char := Char.ofNat (48 + d)

/-- Character to the decimal digit it shows, if any. -/
def charToDigit (c : Char) : Option Nat :=
  if 48 ≤ c.toNat ∧ c.toNat ≤ 57 then some (c.toNat - 48) else none

/-- Reads a list of decimal digit characters. -/
def decodeDigits : List Char → Option (List Nat)
  | [] => some []
  | c :: cs =>
    match charToDigit c, decodeDigits cs with
    | some d, some ds => some (d :: ds)
    | _, _ => none

/-- Decimal digits of a number, most significant first, as characters. -/
def decimalChars (n : Nat) : List Char :=
  (Nat.digits 10 n).reverse.map digitToChar

/-- Largest magnitude of the time value of a valid `Date`, in milliseconds. -/
def maxTimeValue : Int := 8640000000000000

/-- `TimeClip`: a time value out of range makes the date invalid. -/
def timeClip (t : Int) : Option Int :=
  if -maxTimeValue ≤ t ∧ t ≤ maxTimeValue then some t else none

/-- The time zone of the host, in milliseconds east of UTC: `offsetAt t` is the
offset in force at the instant `t`, `offsetOfLocal t` the offset by which the
local time value `t` is read back as an instant (at a repeated or skipped
local time the engine takes the offset before the transition). -/
structure TimeZone where
  offsetAt : Int → Int
  offsetOfLocal : Int → Int

/-- `Date.prototype.getSeconds` on the time value `tv`: the seconds field of
the local time. -/
def getSeconds (z : TimeZone) (tv : Int) : Int :=
  ((tv + z.offsetAt tv) / 1000) % 60

/-- `Date.prototype.setSeconds(sec)` on the time value `tv`: the seconds field
of the local time is replaced (a value past 59 carries over), the local time is
read back as an instant and clipped. -/
def setSeconds (z : TimeZone) (tv : Int) (sec : Int) : Option Int :=
  let t := tv + z.offsetAt tv
  let date := t - ((t / 1000) % 60) * 1000 + sec * 1000
  timeClip (date - z.offsetOfLocal date)

/-- The date `invalidateAt` of `loginUser`: `new Date()` at the clock `now`,
then `setSeconds(getSeconds() + invalidateSeconds)`. -/
def invalidateAt (z : TimeZone) (now : Nat) (invalidateSeconds : Nat) : Option Int :=
  setSeconds z now (getSeconds z now + invalidateSeconds)

/-- `Date.prototype.toString`: the text `Invalid Date` for an invalid date,
otherwise a textual form with second precision (the milliseconds are dropped).
The engine's locale format is replaced by the letter `T` followed by the whole
seconds since the epoch in decimal, and the letter `B` followed by the whole
seconds before the epoch. -/
def dateToString : Option Int → String
  | none => "Invalid Date"
  | some v =>
    if 0 ≤ v then String.mk ('T' :: decimalChars (v.toNat / 1000))
    else String.mk ('B' :: decimalChars (((-v).toNat + 999) / 1000))

/-- `new Date(string)`: the instant a date string denotes, `none` for an
invalid date. -/
def dateParse (s : String) : Option Int :=
  match s.data with
  | 'T' :: cs => (decodeDigits cs).map (fun ds => (1000 * (Nat.ofDigits 10 ds.reverse : Nat) : Int))
  | 'B' :: cs => (decodeDigits cs).map (fun ds => (-(1000 * (Nat.ofDigits 10 ds.reverse : Nat)) : Int))
  | _ => none

/-- The comparison `new Date(s) <= new Date()` with the clock at `now`; an
invalid date compares false. -/
def dateLeNow (s : String) (now : Nat) : Bool :=
  match dateParse s with
  | some e => decide (e ≤ (now : Int))
  | none => false

/-! ## localStorage -/

/-- Content of the browser store: keys with their values. -/
abbrev Storage := List (String × String)

namespace Storage

/-- `localStorage.getItem(key)`; `none` is JS `null`. -/
def getItem (s : Storage) (key : String) : Option String :=
  (s.find? (fun p => p.1 == key)).map (fun p => p.2)

/-- `localStorage.removeItem(key)`. -/
def removeItem (s : Storage) (key : String) : Storage :=
  s.filter (fun p => p.1 != key)

/-- `localStorage.setItem(key, value)`.  The position of a key is not
observable through `getItem`, so the new pair is put in front. -/
def setItem (s : Storage) (key value : String) : Storage :=
  (key, value) :: removeItem s key

/-- `localStorage.clear()`. -/
def clear (_s : Storage) : Storage := []

end Storage

/-- `UALJs.SESSION_EXPIRATION_KEY`. -/
def SESSION_EXPIRATION_KEY : String := "ual-session-expiration"

/-- `UALJs.SESSION_AUTHENTICATOR_KEY`. -/
def SESSION_AUTHENTICATOR_KEY : String := "ual-session-authenticator"

/-- `UALJs.SESSION_ACCOUNT_NAME_KEY`. -/
def SESSION_ACCOUNT_NAME_KEY : String := "ual-session-account-name"

/-- `UALJs.AUTHENTICATOR_LOADING_INTERVAL`, in milliseconds. -/
def AUTHENTICATOR_LOADING_INTERVAL : Nat := 250

/-! ## Collaborators -/

/-- An authenticator object as the controller uses it.

* `ref` is the identity of the object.
* `name` is `authenticator.constructor.name`.
* `shouldInvalidateAfter` is the answer of `shouldInvalidateAfter()`, seconds.
* `isLoading n` is the answer of the call to `isLoading()` made when `n`
  earlier calls have been made on this object.
* `login arg` is how the promise of `login(arg)` settles (`login()` for
  `none`). -/
structure Authenticator where
  ref : Nat
  name : String
  shouldInvalidateAfter : Nat
  isLoading : Nat → Bool
  login : Option String → Except JsValue (List User)

/-- Calls made on collaborators, in the order they happen. -/
inductive Event where
  | isLoading (ref : Nat) (answer : Bool)
  | login (ref : Nat) (accountName : Option String)
  | logout (ref : Nat)
  | userCallbackHandler (users : List User)
  | consoleError (label : String) (value : JsValue)
  | generateUIDom
  | domReset
  deriving DecidableEq, Repr

/-- Everything outside the controller object: the store, the calls made and
the time zone of the host. -/
structure World where
  localStorage : Storage
  trace : List Event
  timeZone : TimeZone

/-- `localStorage.setItem(key, value)` on the store of the world. -/
def World.setItem (w : World) (key value : String) : World :=
  { w with localStorage := w.localStorage.setItem key value }

/-- `localStorage.getItem(key)` on the store of the world. -/
def World.getItem (w : World) (key : String) : Option String :=
  w.localStorage.getItem key

/-- Appends one call to the trace. -/
def World.emit (w : World) (e : Event) : World :=
  { w with trace := w.trace ++ [e] }

/-- Number of `isLoading()` calls recorded on the object `ref`. -/
def loadingCalls (tr : List Event) (ref : Nat) : Nat :=
  (tr.filter (fun e => match e with
    | .isLoading r _ => r == ref
    | _ => false)).length

/-- The `login` calls of a trace: object and argument. -/
def loginCalls (tr : List Event) : List (Nat × Option String) :=
  tr.filterMap (fun e => match e with
    | .login r a => some (r, a)
    | _ => none)

/-- The `logout` calls of a trace. -/
def logoutCalls (tr : List Event) : List Nat :=
  tr.filterMap (fun e => match e with
    | .logout r => some r
    | _ => none)

/-- The user lists handed to the user callback. -/
def callbackCalls (tr : List Event) : List (List User) :=
  tr.filterMap (fun e => match e with
    | .userCallbackHandler us => some us
    | _ => none)

/-- Number of `dom.reset()` calls of a trace. -/
def resetCalls (tr : List Event) : Nat :=
  (tr.filter (fun e => e == Event.domReset)).length

/-- The optional `renderConfig` constructor argument. -/
structure RenderConfig where
  containerElement : String
  buttonStyleOverride : Option Bool
  deriving DecidableEq, Repr

/-- The renderer object built by `init` (`new UALJsDom(...)`): its constructor
arguments apart from the bound `loginUser`. -/
structure UALJsDom where
  authenticators : List Nat
  containerElement : String
  buttonStyleOverride : Bool
  deriving DecidableEq, Repr

/-! ## The controller -/

/-- Fields of a `UALJs` object.  `autoLoginAuthenticator` and
`availableAuthenticators` are what the inherited `getAuthenticators()`
returns. -/
structure UALJs where
  isAutologin : Bool
  renderConfig : Option RenderConfig
  activeAuthenticator : Option Authenticator
  dom : Option UALJsDom
  autoLoginAuthenticator : Option Authenticator
  availableAuthenticators : List Authenticator

/-- The constructor: no active authenticator, no renderer, auto-login off. -/
def UALJs.construct (autoLogin : Option Authenticator) (available : List Authenticator)
    (renderConfig : Option RenderConfig) : UALJs :=
  { isAutologin := false
    renderConfig := renderConfig
    activeAuthenticator := none
    dom := none
    autoLoginAuthenticator := autoLogin
    availableAuthenticators := available }

/-- `clearStorageKeys()`. -/
def clearStorageKeys (w : World) : World :=
  { w with localStorage :=
      ((w.localStorage.removeItem SESSION_EXPIRATION_KEY).removeItem
        SESSION_AUTHENTICATOR_KEY).removeItem SESSION_ACCOUNT_NAME_KEY }

/-- `logoutUser()`: the promise it returns and the world afterwards.  The
value returned by `logout()` is not awaited. -/
def logoutUser (self : UALJs) (w : World) : Outcome × World :=
  match self.activeAuthenticator with
  | none =>
    (.rejected (.error
      "No active authenticator defined, did you login before attempting to logout?" none), w)
  | some a => (.resolved, clearStorageKeys (w.emit (.logout a.ref)))

/-- One `authenticator.isLoading()` call: the answer and the world with the
call recorded. -/
def callIsLoading (a : Authenticator) (w : World) : Bool × World :=
  let b := a.isLoading (loadingCalls w.trace a.ref)
  (b, w.emit (.isLoading a.ref b))

/-- The interval callback of `waitForAuthenticatorToLoad`, observed for at most
`ticks` firings: each firing calls `isLoading()`; on the first `false` the
interval is cleared and the promise resolved.  Returns whether the promise got
resolved and how many firings happened. -/
def pollInterval (a : Authenticator) : Nat → World → Bool × Nat × World
  | 0, w => (false, 0, w)
  | ticks + 1, w =>
    let (b, w1) := callIsLoading a w
    if !b then (true, 1, w1)
    else
      let r := pollInterval a ticks w1
      (r.1, r.2.1 + 1, r.2.2)

/-- The executor of the promise built by `waitForAuthenticatorToLoad`: one
`isLoading()` call; the promise is resolved at once when the answer is `false`,
otherwise the interval is installed.  Returns whether it resolved. -/
def waitStart (a : Authenticator) (w : World) : Bool × World :=
  let (b, w1) := callIsLoading a w
  (!b, w1)

/-- What follows the executor of `waitForAuthenticatorToLoad`: nothing when the
promise is resolved already, the interval firings otherwise. -/
def waitResume (a : Authenticator) (ticks : Nat) (loaded : Bool) (w : World) :
    Bool × Nat × World :=
  if loaded then (true, 0, w) else pollInterval a ticks w

/-- `waitForAuthenticatorToLoad(authenticator)` observed for at most `ticks`
interval firings: whether the promise resolved, the number of firings, and the
world. -/
def waitForAuthenticatorToLoad (a : Authenticator) (ticks : Nat) (w : World) :
    Bool × Nat × World :=
  let (loaded, w1) := waitStart a w
  waitResume a ticks loaded w1

/-- A `loginUser` call at its first suspension: either its promise is rejected
already, or it awaits the promise of `waitForAuthenticatorToLoad`. -/
inductive LoginTask where
  | rejected (e : JsValue)
  | awaiting (authenticator : Authenticator) (accountName : Option String) (loaded : Bool)

/-- `loginUser` up to its first suspension, with the clock at `now`: the active
authenticator is set, the expiration and the authenticator name are stored and
the executor of `waitForAuthenticatorToLoad` runs.  An `undefined`
authenticator makes `shouldInvalidateAfter()` a type error, outside the `try`. -/
def loginUserStart (self : UALJs) (w : World) (now : Nat)
    (authenticator : Option Authenticator) (accountName : Option String) :
    UALJs × World × LoginTask :=
  let self1 := { self with activeAuthenticator := authenticator }
  match authenticator with
  | none =>
    (self1, w, .rejected (.typeError "Cannot read properties of undefined"))
  | some a =>
    let invalidateSeconds := a.shouldInvalidateAfter
    let w1 := w.setItem SESSION_EXPIRATION_KEY
      (dateToString (invalidateAt w.timeZone now invalidateSeconds))
    let w2 := w1.setItem SESSION_AUTHENTICATOR_KEY a.name
    let (loaded, w3) := waitStart a w2
    (self1, w3, .awaiting a accountName loaded)

/-- The `catch (e)` clause of `loginUser`: two `console.error` calls, then
`clearStorageKeys()`, then `throw e`.  Reading `e.cause` of `undefined` or
`null` is itself a type error, raised before the keys are cleared. -/
def loginUserCatch (e : JsValue) (w : World) : Outcome × World :=
  let w1 := w.emit (.consoleError "Error" e)
  match e with
  | .undefined => (.rejected (.typeError "Cannot read properties of undefined"), w1)
  | .null => (.rejected (.typeError "Cannot read properties of null"), w1)
  | .error _ (some c) =>
    (.rejected e, clearStorageKeys (w1.emit (.consoleError "Error cause" (.str c))))
  | _ => (.rejected e, clearStorageKeys (w1.emit (.consoleError "Error cause" (.str ""))))

/-- The statements of `loginUser` after the `try` block: the renderer is reset
unless this is an auto-login; `this.dom.reset()` on a missing renderer is a
type error. -/
def loginUserFinish (self : UALJs) (w : World) : Outcome × World :=
  if !self.isAutologin then
    match self.dom with
    | none => (.rejected (.typeError "Cannot read properties of undefined"), w)
    | some _ => (.resolved, w.emit .domReset)
  else (.resolved, w)

/-- The `try` block of `loginUser` once the authenticator has loaded: `login`
with the account name when it is truthy (which is then stored), `login()`
otherwise, then the user callback. -/
def loginUserBody (self : UALJs) (a : Authenticator) (accountName : Option String)
    (w : World) : Outcome × World :=
  if truthy accountName then
    let w1 := w.emit (.login a.ref accountName)
    match a.login accountName with
    | .error e => loginUserCatch e w1
    | .ok users =>
      let w2 := w1.setItem SESSION_ACCOUNT_NAME_KEY (accountName.getD "")
      loginUserFinish self (w2.emit (.userCallbackHandler users))
  else
    let w1 := w.emit (.login a.ref none)
    match a.login none with
    | .error e => loginUserCatch e w1
    | .ok users => loginUserFinish self (w1.emit (.userCallbackHandler users))

/-- The continuation of `loginUser` after its first suspension, observed for
at most `ticks` interval firings.  `self` is the controller as it is when the
continuation runs. -/
def loginUserResume (self : UALJs) (ticks : Nat) (w : World) : LoginTask → Outcome × World
  | .rejected e => (.rejected e, w)
  | .awaiting a accountName loaded =>
    let r := waitResume a ticks loaded w
    if r.1 then loginUserBody self a accountName r.2.2
    else (.pending, r.2.2)

/-- `loginUser(authenticator, accountName)` as seen by a caller that awaits
its promise, with the clock at `now` and the poll observed for `ticks`
firings. -/
def loginUser (self : UALJs) (ticks : Nat) (w : World) (now : Nat)
    (authenticator : Option Authenticator) (accountName : Option String) :
    Outcome × UALJs × World :=
  let s := loginUserStart self w now authenticator accountName
  let r := loginUserResume s.1 ticks s.2.1 s.2.2
  (r.1, s.1, r.2)

/-- `attemptSessionLogin(authenticators)` with the clock at `now`: the
controller, the world, and the `loginUser` call it left running, if any (its
promise is not awaited). -/
def attemptSessionLogin (self : UALJs) (w : World) (now : Nat)
    (authenticators : List Authenticator) : UALJs × World × Option LoginTask :=
  match orUndefined (w.getItem SESSION_EXPIRATION_KEY) with
  | none => (self, w, none)
  | some sessionExpiration =>
    if dateLeNow sessionExpiration now then
      (self, { w with localStorage := w.localStorage.clear }, none)
    else
      let authenticatorName := w.getItem SESSION_AUTHENTICATOR_KEY
      let sessionAuthenticator :=
        authenticators.find? (fun authenticator => some authenticator.name == authenticatorName)
      let accountName := orUndefined (w.getItem SESSION_ACCOUNT_NAME_KEY)
      let s := loginUserStart self w now sessionAuthenticator accountName
      (s.1, s.2.1, some s.2.2)

/-- `init()` with the clock at `now`: what it throws, if anything, the
controller and the world when it returns, and the `loginUser` call it left
running, if any. -/
def init (self : UALJs) (w : World) (now : Nat) :
    Except JsValue Unit × UALJs × World × Option LoginTask :=
  match self.autoLoginAuthenticator with
  | some auto =>
    let self1 := { self with isAutologin := true }
    let s := loginUserStart self1 w now (some auto) none
    let self2 := { s.1 with activeAuthenticator := some auto }
    (.ok (), self2, s.2.1, some s.2.2)
  | none =>
    let s := attemptSessionLogin self w now self.availableAuthenticators
    match s.1.renderConfig with
    | none =>
      (.error (.error
        "Render Configuration is required when no auto login authenticator is provided" none),
        s.1, s.2.1, s.2.2)
    | some renderConfig =>
      let dom : UALJsDom :=
        { authenticators := self.availableAuthenticators.map (fun a => a.ref)
          containerElement := renderConfig.containerElement
          buttonStyleOverride := renderConfig.buttonStyleOverride.getD false }
      let self1 := { s.1 with dom := some dom }
      (.ok (), self1, s.2.1.emit .generateUIDom, s.2.2)

/-- The state once the `loginUser` call left running by `init` or
`attemptSessionLogin` has been continued for `ticks` interval firings. -/
def settle (self : UALJs) (ticks : Nat) (w : World) : Option LoginTask → Outcome × World
  | none => (.resolved, w)
  | some task => loginUserResume self ticks w task

/-! ## Concrete objects used to evaluate the methods -/

/-- An authenticator that is loaded and whose login resolves with one user. -/
def scatter : Authenticator :=
  { ref := 1, name := "Scatter", shouldInvalidateAfter := 60,
    isLoading := fun _ => false, login := fun _ => .ok ["alice"] }

/-- An authenticator that is loaded and whose login rejects with an `Error`. -/
def ledger : Authenticator :=
  { ref := 2, name := "Ledger", shouldInvalidateAfter := 30,
    isLoading := fun _ => false,
    login := fun _ => .error (.error "user cancelled" none) }

/-- An authenticator that is loaded and whose login rejects with `undefined`
(a bare `reject()`). -/
def lynx : Authenticator :=
  { ref := 3, name := "Lynx", shouldInvalidateAfter := 30,
    isLoading := fun _ => false, login := fun _ => .error .undefined }

/-- An authenticator that reports loading on its first two `isLoading()` calls. -/
def anchor : Authenticator :=
  { ref := 4, name := "Anchor", shouldInvalidateAfter := 10,
    isLoading := fun n => decide (n < 2), login := fun _ => .ok ["bob"] }

/-- An authenticator that never leaves its loading state. -/
def stuck : Authenticator :=
  { ref := 5, name := "Stuck", shouldInvalidateAfter := 10,
    isLoading := fun _ => true, login := fun _ => .ok [] }

/-- A host on UTC. -/
def utcZone : TimeZone := { offsetAt := fun _ => 0, offsetOfLocal := fun _ => 0 }

/-- A host in New York around 1 November 2026: summer time (four hours
west) until 06:00 UTC, that is until the local time reads 02:00, winter time
(five hours west) from then on. -/
def newYorkZone : TimeZone :=
  { offsetAt := fun t => if t < 1793512800000 then -14400000 else -18000000
    offsetOfLocal := fun t => if t < 1793498400000 then -14400000 else -18000000 }

/-- An authenticator with a window of one hour. -/
def hourly : Authenticator :=
  { ref := 6, name := "Hourly", shouldInvalidateAfter := 3600,
    isLoading := fun _ => false, login := fun _ => .ok ["carol"] }

/-- An authenticator whose window reaches past the last valid date. -/
def aeon : Authenticator :=
  { ref := 7, name := "Aeon", shouldInvalidateAfter := 8640000000001,
    isLoading := fun _ => false, login := fun _ => .ok ["dave"] }

/-- The empty store with nothing recorded. -/
def emptyWorld : World := { localStorage := [], trace := [], timeZone := utcZone }

/-- The empty store on the New York host. -/
def newYorkWorld : World := { localStorage := [], trace := [], timeZone := newYorkZone }

/-- A store holding a session record of an earlier login with an account name,
next to a key of the application. -/
def aliceWorld : World :=
  { localStorage :=
      [("ual-session-expiration", "T100"), ("ual-session-authenticator", "Ledger"),
       ("ual-session-account-name", "alice"), ("theme", "dark")]
    trace := []
    timeZone := utcZone }

/-- A render configuration. -/
def someRenderConfig : RenderConfig :=
  { containerElement := "ual-div", buttonStyleOverride := none }

/-- A controller on which `init()` has built the renderer. -/
def renderedController : UALJs :=
  { isAutologin := false
    renderConfig := some someRenderConfig
    activeAuthenticator := none
    dom := some { authenticators := [1], containerElement := "ual-div",
                  buttonStyleOverride := false }
    autoLoginAuthenticator := none
    availableAuthenticators := [scatter] }

/-! ## The store -/

theorem Storage.getItem_removeItem_self (s : Storage) (k : String) :
    (s.removeItem k).getItem k = none := by
  induction s with
  | nil => rfl
  | cons p s ih =>
    simp only [Storage.removeItem, Storage.getItem, List.filter_cons] at ih ⊢
    by_cases h : p.1 = k
    · simpa only [h, bne_self_eq_false, Bool.false_eq_true, if_false] using ih
    · have hb : (p.1 != k) = true := by simpa using h
      have hc : (p.1 == k) = false := by simpa using h
      simpa only [hb, if_true, List.find?_cons, hc] using ih

theorem Storage.getItem_removeItem_ne (s : Storage) (k j : String) (h : j ≠ k) :
    (s.removeItem k).getItem j = s.getItem j := by
  induction s with
  | nil => rfl
  | cons p s ih =>
    simp only [Storage.removeItem, Storage.getItem, List.filter_cons] at ih ⊢
    by_cases hk : p.1 = k
    · have hc : (p.1 == j) = false := by
        simpa using fun e : p.1 = j => h (e.symm.trans hk)
      simpa only [hk, bne_self_eq_false, Bool.false_eq_true, if_false, List.find?_cons,
        hk ▸ hc] using ih
    · have hb : (p.1 != k) = true := by simpa using hk
      simp only [hb, if_true, List.find?_cons]
      cases hj : (p.1 == j)
      · simpa only using ih
      · rfl

theorem Storage.getItem_setItem_self (s : Storage) (k v : String) :
    (s.setItem k v).getItem k = some v := by
  simp [Storage.setItem, Storage.getItem]

theorem Storage.getItem_setItem_ne (s : Storage) (k v j : String) (h : j ≠ k) :
    (s.setItem k v).getItem j = s.getItem j := by
  have hk : ¬ k = j := fun e => h e.symm
  simpa [Storage.setItem, Storage.getItem, hk] using Storage.getItem_removeItem_ne s k j h

theorem session_keys_distinct :
    SESSION_EXPIRATION_KEY ≠ SESSION_AUTHENTICATOR_KEY ∧
    SESSION_EXPIRATION_KEY ≠ SESSION_ACCOUNT_NAME_KEY ∧
    SESSION_AUTHENTICATOR_KEY ≠ SESSION_ACCOUNT_NAME_KEY := by
  decide

theorem clearStorageKeys_trace (w : World) : (clearStorageKeys w).trace = w.trace := rfl

theorem clearStorageKeys_expiration (w : World) :
    (clearStorageKeys w).getItem SESSION_EXPIRATION_KEY = none := by
  have h := session_keys_distinct
  simp only [clearStorageKeys, World.getItem]
  rw [Storage.getItem_removeItem_ne _ _ _ h.2.1, Storage.getItem_removeItem_ne _ _ _ h.1,
    Storage.getItem_removeItem_self]

theorem clearStorageKeys_authenticator (w : World) :
    (clearStorageKeys w).getItem SESSION_AUTHENTICATOR_KEY = none := by
  have h := session_keys_distinct
  simp only [clearStorageKeys, World.getItem]
  rw [Storage.getItem_removeItem_ne _ _ _ h.2.2, Storage.getItem_removeItem_self]

theorem clearStorageKeys_accountName (w : World) :
    (clearStorageKeys w).getItem SESSION_ACCOUNT_NAME_KEY = none := by
  simp only [clearStorageKeys, World.getItem]
  rw [Storage.getItem_removeItem_self]

theorem clearStorageKeys_other (w : World) (k : String)
    (h1 : k ≠ SESSION_EXPIRATION_KEY) (h2 : k ≠ SESSION_AUTHENTICATOR_KEY)
    (h3 : k ≠ SESSION_ACCOUNT_NAME_KEY) :
    (clearStorageKeys w).getItem k = w.getItem k := by
  simp only [clearStorageKeys, World.getItem]
  rw [Storage.getItem_removeItem_ne _ _ _ h3, Storage.getItem_removeItem_ne _ _ _ h2,
    Storage.getItem_removeItem_ne _ _ _ h1]

theorem clearStorageKeys_idem (w : World) :
    (clearStorageKeys (clearStorageKeys w)).localStorage = (clearStorageKeys w).localStorage := by
  simp only [clearStorageKeys, Storage.removeItem, List.filter_filter, Bool.and_self,
    Bool.and_assoc]
  congr 1
  funext p
  cases (p.1 != SESSION_EXPIRATION_KEY) <;> cases (p.1 != SESSION_AUTHENTICATOR_KEY) <;>
    cases (p.1 != SESSION_ACCOUNT_NAME_KEY) <;> rfl

/-! ## Dates -/

theorem charToDigit_digitToChar (d : Nat) (h : d < 10) : charToDigit (digitToChar d) = some d := by
  interval_cases d <;> rfl

theorem decodeDigits_map (ds : List Nat) (h : ∀ d ∈ ds, d < 10) :
    decodeDigits (ds.map digitToChar) = some ds := by
  induction ds with
  | nil => rfl
  | cons d ds ih =>
    have hd : d < 10 := h d (List.mem_cons_self d ds)
    have ht : ∀ x ∈ ds, x < 10 := fun x hx => h x (List.mem_cons_of_mem d hx)
    simp only [List.map_cons, decodeDigits, charToDigit_digitToChar d hd, ih ht]

theorem decodeDigits_decimalChars (n : Nat) :
    (decodeDigits (decimalChars n)).map (fun ds => Nat.ofDigits 10 ds.reverse) = some n := by
  have hlt : ∀ d ∈ (Nat.digits 10 n).reverse, d < 10 := by
    intro d hd
    exact Nat.digits_lt_base (by norm_num) (List.mem_reverse.mp hd)
  simp only [decimalChars, decodeDigits_map _ hlt, Option.map_some', List.reverse_reverse,
    Nat.ofDigits_digits]

/-- Parsing what `toString` printed gives the instant back, cut to whole seconds. -/
theorem dateParse_dateToString (v : Int) :
    dateParse (dateToString (some v)) = some (1000 * (v / 1000)) := by
  by_cases hv : 0 ≤ v
  · have h := decodeDigits_decimalChars (v.toNat / 1000)
    cases hd : decodeDigits (decimalChars (v.toNat / 1000)) with
    | none => rw [hd] at h; exact Option.noConfusion h
    | some ds =>
      rw [hd] at h
      simp only [Option.map_some', Option.some.injEq] at h
      simp only [dateToString, hv, if_true, dateParse, hd, Option.map_some', h,
        Option.some.injEq]
      omega
  · have h := decodeDigits_decimalChars (((-v).toNat + 999) / 1000)
    cases hd : decodeDigits (decimalChars (((-v).toNat + 999) / 1000)) with
    | none => rw [hd] at h; exact Option.noConfusion h
    | some ds =>
      rw [hd] at h
      simp only [Option.map_some', Option.some.injEq] at h
      simp only [dateToString, hv, if_false, dateParse, hd, Option.map_some', h,
        Option.some.injEq]
      omega

theorem dateParse_invalid : dateParse (dateToString none) = none := rfl

theorem dateParse_empty : dateParse "" = none := rfl

theorem truthy_of_dateParse (s : String) (e : Int) (h : dateParse s = some e) :
    truthy (some s) = true := by
  have hne : s ≠ "" := by
    intro hs
    rw [hs, dateParse_empty] at h
    exact Option.noConfusion h
  simpa [truthy] using hne

theorem orUndefined_of_truthy (x : Option String) (h : truthy x = true) : orUndefined x = x := by
  simp [orUndefined, h]

/-! ## Session resume on an expired record -/

/-- C2: when the stored `ual-session-expiration` denotes an instant that is not
later than the clock, `attemptSessionLogin` empties the store (so the three
session keys are absent), starts no `loginUser` call, makes no call on any
authenticator and leaves the controller, hence its active authenticator, as it
was. -/
theorem C2_expired_session_is_cleared (self : UALJs) (w : World) (now : Nat)
    (authenticators : List Authenticator) (exp : String) (e : Int)
    (hget : w.getItem SESSION_EXPIRATION_KEY = some exp)
    (hparse : dateParse exp = some e) (hle : e ≤ (now : Int)) :
    (attemptSessionLogin self w now authenticators).2.1.localStorage = [] ∧
    (attemptSessionLogin self w now authenticators).2.1.getItem SESSION_EXPIRATION_KEY = none ∧
    (attemptSessionLogin self w now authenticators).2.1.getItem SESSION_AUTHENTICATOR_KEY = none ∧
    (attemptSessionLogin self w now authenticators).2.1.getItem SESSION_ACCOUNT_NAME_KEY = none ∧
    (attemptSessionLogin self w now authenticators).2.2 = none ∧
    (attemptSessionLogin self w now authenticators).2.1.trace = w.trace ∧
    (attemptSessionLogin self w now authenticators).1.activeAuthenticator
      = self.activeAuthenticator := by
  have ht : orUndefined (w.getItem SESSION_EXPIRATION_KEY) = some exp := by
    rw [hget]
    exact orUndefined_of_truthy _ (truthy_of_dateParse exp e hparse)
  have hd : dateLeNow exp now = true := by
    simp [dateLeNow, hparse, hle]
  have hr : attemptSessionLogin self w now authenticators
      = (self, { w with localStorage := [] }, none) := by
    simp only [attemptSessionLogin, ht, hd, if_true, Storage.clear]
  rw [hr]
  exact ⟨rfl, rfl, rfl, rfl, rfl, rfl, rfl⟩

theorem C2_expired_session_is_cleared_witness :
    aliceWorld.getItem SESSION_EXPIRATION_KEY = some "T100" ∧
    dateParse "T100" = some 100000 ∧ (100000 : Int) ≤ ((200000 : Nat) : Int) ∧
    (attemptSessionLogin renderedController aliceWorld 200000 [scatter, ledger]).2.1.localStorage
      = [] ∧
    (attemptSessionLogin renderedController aliceWorld 200000 [scatter, ledger]).2.1.trace
      = aliceWorld.trace :=
  have h := C2_expired_session_is_cleared renderedController aliceWorld 200000 [scatter, ledger]
    "T100" 100000 (by decide) (by decide) (by decide)
  ⟨by decide, by decide, by decide, h.1, h.2.2.2.2.2.1⟩

/-! ## Logout -/

/-- C5 (as amended): on a controller whose active authenticator is unset, which
is the case of a controller fresh from the constructor, `logoutUser` fails with
the error "No active authenticator defined, ...", makes no call on any
authenticator and leaves the store unchanged. -/
theorem C5_logout_without_active_authenticator (self : UALJs) (w : World)
    (h : self.activeAuthenticator = none) :
    (logoutUser self w).1 = .rejected (.error
      "No active authenticator defined, did you login before attempting to logout?" none) ∧
    (logoutUser self w).2.trace = w.trace ∧
    (logoutUser self w).2.localStorage = w.localStorage := by
  have hr : logoutUser self w = (.rejected (.error
      "No active authenticator defined, did you login before attempting to logout?" none), w) := by
    simp only [logoutUser, h]
  rw [hr]
  exact ⟨rfl, rfl, rfl⟩

theorem C5_logout_without_active_authenticator_witness :
    (UALJs.construct none [scatter] (some someRenderConfig)).activeAuthenticator = none ∧
    (logoutUser (UALJs.construct none [scatter] (some someRenderConfig)) aliceWorld).1
      = .rejected (.error
        "No active authenticator defined, did you login before attempting to logout?" none) ∧
    (logoutUser (UALJs.construct none [scatter] (some someRenderConfig)) aliceWorld).2.trace
      = aliceWorld.trace ∧
    (logoutUser (UALJs.construct none [scatter] (some someRenderConfig)) aliceWorld).2.localStorage
      = aliceWorld.localStorage :=
  ⟨rfl, C5_logout_without_active_authenticator
    (UALJs.construct none [scatter] (some someRenderConfig)) aliceWorld rfl⟩

/-- C5 (as stated) fails: on a fresh controller the only `loginUser` call is
rejected by the authenticator, so no `loginUser` call has completed
successfully; `logoutUser` then resolves and calls that authenticator's
`logout`, because `loginUser` set it active before anything could fail. -/
theorem C5_counterexample :
    (loginUser (UALJs.construct none [ledger] none) 0 emptyWorld 5000 (some ledger) none).1
      = .rejected (.error "user cancelled" none) ∧
    (logoutUser
      (loginUser (UALJs.construct none [ledger] none) 0 emptyWorld 5000 (some ledger) none).2.1
      (loginUser (UALJs.construct none [ledger] none) 0 emptyWorld 5000 (some ledger) none).2.2).1
      = .resolved ∧
    logoutCalls (logoutUser
      (loginUser (UALJs.construct none [ledger] none) 0 emptyWorld 5000 (some ledger) none).2.1
      (loginUser (UALJs.construct none [ledger] none) 0 emptyWorld 5000 (some ledger) none).2.2).2.trace
      = [ledger.ref] := by
  decide

/-- C6: with an active authenticator `a`, `logoutUser` resolves after exactly
one call of `a.logout()` (the only call it makes), the three session keys are
absent afterwards, every other key keeps its value, and a second `logoutUser`
leaves the same store as the first. -/
theorem C6_logout_clears_session (self : UALJs) (w : World) (a : Authenticator)
    (h : self.activeAuthenticator = some a) :
    (logoutUser self w).1 = .resolved ∧
    (logoutUser self w).2.trace = w.trace ++ [Event.logout a.ref] ∧
    logoutCalls (logoutUser self w).2.trace = logoutCalls w.trace ++ [a.ref] ∧
    (logoutUser self w).2.getItem SESSION_EXPIRATION_KEY = none ∧
    (logoutUser self w).2.getItem SESSION_AUTHENTICATOR_KEY = none ∧
    (logoutUser self w).2.getItem SESSION_ACCOUNT_NAME_KEY = none ∧
    (∀ k : String, k ≠ SESSION_EXPIRATION_KEY → k ≠ SESSION_AUTHENTICATOR_KEY →
      k ≠ SESSION_ACCOUNT_NAME_KEY → (logoutUser self w).2.getItem k = w.getItem k) ∧
    (logoutUser self (logoutUser self w).2).2.localStorage
      = (logoutUser self w).2.localStorage := by
  have hr : ∀ v : World,
      logoutUser self v = (.resolved, clearStorageKeys (v.emit (.logout a.ref))) := by
    intro v
    simp only [logoutUser, h]
  rw [hr w, hr]
  refine ⟨rfl, rfl, ?_, clearStorageKeys_expiration _, clearStorageKeys_authenticator _,
    clearStorageKeys_accountName _, ?_, ?_⟩
  · simp [clearStorageKeys_trace, World.emit, logoutCalls, List.filterMap_append]
  · intro k h1 h2 h3
    exact clearStorageKeys_other _ k h1 h2 h3
  · exact clearStorageKeys_idem _

theorem C6_logout_clears_session_witness :
    (loginUser renderedController 0 aliceWorld 5000 (some scatter) none).2.1.activeAuthenticator
      = some scatter ∧
    (logoutUser (loginUser renderedController 0 aliceWorld 5000 (some scatter) none).2.1
      aliceWorld).2.getItem SESSION_ACCOUNT_NAME_KEY = none ∧
    (logoutUser (loginUser renderedController 0 aliceWorld 5000 (some scatter) none).2.1
      aliceWorld).2.getItem "theme" = some "dark" :=
  have h := C6_logout_clears_session
    (loginUser renderedController 0 aliceWorld 5000 (some scatter) none).2.1 aliceWorld scatter rfl
  ⟨rfl, h.2.2.2.2.2.1,
    (h.2.2.2.2.2.2.1 "theme" (by decide) (by decide) (by decide)).trans (by decide)⟩

/-! ## The synchronous part of `loginUser` -/

theorem loginUserStart_fields (self : UALJs) (w : World) (now : Nat)
    (au : Option Authenticator) (ac : Option String) :
    (loginUserStart self w now au ac).1 = { self with activeAuthenticator := au } := by
  cases au <;> rfl

theorem loginUserStart_some (self : UALJs) (w : World) (now : Nat)
    (a : Authenticator) (ac : Option String) :
    loginUserStart self w now (some a) ac =
      ({ self with activeAuthenticator := some a },
       (((w.setItem SESSION_EXPIRATION_KEY
            (dateToString (invalidateAt w.timeZone now a.shouldInvalidateAfter))).setItem
          SESSION_AUTHENTICATOR_KEY a.name).emit
        (.isLoading a.ref (a.isLoading (loadingCalls w.trace a.ref)))),
       .awaiting a ac (!a.isLoading (loadingCalls w.trace a.ref))) := rfl

theorem loginUserStart_count (self : UALJs) (w : World) (now : Nat)
    (au : Option Authenticator) (ac : Option String) :
    (loginUserStart self w now au ac).2.1.trace.count Event.generateUIDom
      = w.trace.count Event.generateUIDom := by
  cases au with
  | none => rfl
  | some a =>
    rw [loginUserStart_some]
    simp [World.emit, World.setItem, List.count_append]

theorem attemptSessionLogin_fields (self : UALJs) (w : World) (now : Nat)
    (l : List Authenticator) :
    (attemptSessionLogin self w now l).1.renderConfig = self.renderConfig ∧
    (attemptSessionLogin self w now l).1.dom = self.dom ∧
    (attemptSessionLogin self w now l).2.1.trace.count Event.generateUIDom
      = w.trace.count Event.generateUIDom := by
  unfold attemptSessionLogin
  split
  · exact ⟨rfl, rfl, rfl⟩
  · split
    · exact ⟨rfl, rfl, rfl⟩
    · refine ⟨?_, ?_, loginUserStart_count _ _ _ _ _⟩ <;> rw [loginUserStart_fields]

/-! ## `init` without a render configuration -/

/-- C7: on a controller that has no render configuration and no auto-login
authenticator, `init()` throws the error "Render Configuration is required when
no auto login authenticator is provided", leaves the `dom` field as it was
(unset on a controller fresh from the constructor) and never calls
`generateUIDom`; when moreover `ual-session-expiration` is absent from the
store it starts no `loginUser` call and leaves the world (store and calls) and
the controller, hence its active authenticator, unchanged. -/
theorem C7_init_requires_render_config (self : UALJs) (w : World) (now : Nat)
    (hrc : self.renderConfig = none) (hauto : self.autoLoginAuthenticator = none) :
    (init self w now).1 = .error (.error
      "Render Configuration is required when no auto login authenticator is provided" none) ∧
    (init self w now).2.1.dom = self.dom ∧
    (init self w now).2.2.1.trace.count Event.generateUIDom
      = w.trace.count Event.generateUIDom ∧
    (w.getItem SESSION_EXPIRATION_KEY = none →
      (init self w now).2.2.2 = none ∧ (init self w now).2.2.1 = w ∧
      (init self w now).2.1 = self) := by
  have hf := attemptSessionLogin_fields self w now self.availableAuthenticators
  have hi : init self w now = (.error (.error
      "Render Configuration is required when no auto login authenticator is provided" none),
      (attemptSessionLogin self w now self.availableAuthenticators).1,
      (attemptSessionLogin self w now self.availableAuthenticators).2.1,
      (attemptSessionLogin self w now self.availableAuthenticators).2.2) := by
    simp only [init, hauto, hf.1, hrc]
  rw [hi]
  refine ⟨rfl, hf.2.1, hf.2.2, ?_⟩
  intro hget
  have ha : attemptSessionLogin self w now self.availableAuthenticators = (self, w, none) := by
    simp only [attemptSessionLogin, hget, orUndefined, truthy, Bool.false_eq_true, if_false]
  rw [ha]
  exact ⟨rfl, rfl, rfl⟩

theorem C7_init_requires_render_config_witness :
    (UALJs.construct none [scatter, ledger] none).renderConfig = none ∧
    (UALJs.construct none [scatter, ledger] none).autoLoginAuthenticator = none ∧
    (UALJs.construct none [scatter, ledger] none).dom = none ∧
    (UALJs.construct none [scatter, ledger] none).activeAuthenticator = none ∧
    (init (UALJs.construct none [scatter, ledger] none) emptyWorld 5000).1 = .error (.error
      "Render Configuration is required when no auto login authenticator is provided" none) ∧
    (init (UALJs.construct none [scatter, ledger] none) emptyWorld 5000).2.1
      = UALJs.construct none [scatter, ledger] none ∧
    (init (UALJs.construct none [scatter, ledger] none) emptyWorld 5000).2.2.1 = emptyWorld :=
  have h := C7_init_requires_render_config (UALJs.construct none [scatter, ledger] none)
    emptyWorld 5000 rfl rfl
  ⟨rfl, rfl, rfl, rfl, h.1, (h.2.2.2 (by decide)).2.2, (h.2.2.2 (by decide)).2.1⟩

/-! ## The readiness poll -/

theorem loadingCalls_emit (tr : List Event) (r : Nat) (b : Bool) :
    loadingCalls (tr ++ [Event.isLoading r b]) r = loadingCalls tr r + 1 := by
  simp [loadingCalls, List.filter_append]

theorem callIsLoading_eq (a : Authenticator) (w : World) :
    callIsLoading a w =
      (a.isLoading (loadingCalls w.trace a.ref),
       w.emit (.isLoading a.ref (a.isLoading (loadingCalls w.trace a.ref)))) := rfl

/-- The interval resolves at its firing number `k + 1` when the answers before
are `true` and that one is `false`; firings left over are not used. -/
theorem pollInterval_resolves (a : Authenticator) :
    ∀ (k : Nat) (w : World) (ticks : Nat),
      (∀ j, j < k → a.isLoading (loadingCalls w.trace a.ref + j) = true) →
      a.isLoading (loadingCalls w.trace a.ref + k) = false → k < ticks →
      pollInterval a ticks w =
        (true, k + 1,
          { w with trace := w.trace ++
              (List.replicate k (Event.isLoading a.ref true) ++ [Event.isLoading a.ref false]) }) := by
  intro k
  induction k with
  | zero =>
    intro w ticks _ hk ht
    obtain ⟨t, rfl⟩ : ∃ t, ticks = t + 1 := ⟨ticks - 1, by omega⟩
    have h0 : a.isLoading (loadingCalls w.trace a.ref) = false := by simpa using hk
    simp [pollInterval, callIsLoading_eq, h0, World.emit]
  | succ k ih =>
    intro w ticks hj hk ht
    obtain ⟨t, rfl⟩ : ∃ t, ticks = t + 1 := ⟨ticks - 1, by omega⟩
    have h0 : a.isLoading (loadingCalls w.trace a.ref) = true := by simpa using hj 0 (by omega)
    have hn : loadingCalls (w.emit (.isLoading a.ref true)).trace a.ref
        = loadingCalls w.trace a.ref + 1 := loadingCalls_emit _ _ _
    have hi := ih (w.emit (.isLoading a.ref true)) t
      (by
        intro j hlt
        rw [hn]
        have := hj (j + 1) (by omega)
        rwa [show loadingCalls w.trace a.ref + 1 + j = loadingCalls w.trace a.ref + (j + 1) by omega])
      (by
        rw [hn]
        rwa [show loadingCalls w.trace a.ref + 1 + k = loadingCalls w.trace a.ref + (k + 1) by omega])
      (by omega)
    simp only [pollInterval, callIsLoading_eq, h0, Bool.not_true, Bool.false_eq_true, if_false, hi]
    simp [World.emit, List.replicate_succ]

/-- While every answer is `true` the interval keeps firing and never resolves. -/
theorem pollInterval_pending (a : Authenticator) :
    ∀ (ticks : Nat) (w : World),
      (∀ j, j < ticks → a.isLoading (loadingCalls w.trace a.ref + j) = true) →
      pollInterval a ticks w =
        (false, ticks,
          { w with trace := w.trace ++ List.replicate ticks (Event.isLoading a.ref true) }) := by
  intro ticks
  induction ticks with
  | zero =>
    intro w _
    simp [pollInterval]
  | succ t ih =>
    intro w hj
    have h0 : a.isLoading (loadingCalls w.trace a.ref) = true := by simpa using hj 0 (by omega)
    have hn : loadingCalls (w.emit (.isLoading a.ref true)).trace a.ref
        = loadingCalls w.trace a.ref + 1 := loadingCalls_emit _ _ _
    have hi := ih (w.emit (.isLoading a.ref true))
      (by
        intro j hlt
        rw [hn]
        have := hj (j + 1) (by omega)
        rwa [show loadingCalls w.trace a.ref + 1 + j = loadingCalls w.trace a.ref + (j + 1) by omega])
    simp only [pollInterval, callIsLoading_eq, h0, Bool.not_true, Bool.false_eq_true, if_false, hi]
    simp [World.emit, List.replicate_succ]

/-- The whole wait: with first `false` answer at call number `k` (counting from
zero) it resolves after `k` interval firings, having made the calls
`0, ..., k`. -/
theorem waitForAuthenticatorToLoad_resolves (a : Authenticator) (w : World) (k ticks : Nat)
    (hj : ∀ j, j < k → a.isLoading (loadingCalls w.trace a.ref + j) = true)
    (hk : a.isLoading (loadingCalls w.trace a.ref + k) = false) (ht : k ≤ ticks) :
    waitForAuthenticatorToLoad a ticks w =
      (true, k,
        { w with trace := w.trace ++
            (List.replicate k (Event.isLoading a.ref true) ++ [Event.isLoading a.ref false]) }) := by
  cases k with
  | zero =>
    have h0 : a.isLoading (loadingCalls w.trace a.ref) = false := by simpa using hk
    simp [waitForAuthenticatorToLoad, waitStart, waitResume, callIsLoading_eq, h0, World.emit]
  | succ k =>
    have h0 : a.isLoading (loadingCalls w.trace a.ref) = true := by simpa using hj 0 (by omega)
    have hn : loadingCalls (w.emit (.isLoading a.ref true)).trace a.ref
        = loadingCalls w.trace a.ref + 1 := loadingCalls_emit _ _ _
    have hp := pollInterval_resolves a k (w.emit (.isLoading a.ref true)) ticks
      (by
        intro j hlt
        rw [hn]
        have := hj (j + 1) (by omega)
        rwa [show loadingCalls w.trace a.ref + 1 + j = loadingCalls w.trace a.ref + (j + 1) by omega])
      (by
        rw [hn]
        rwa [show loadingCalls w.trace a.ref + 1 + k = loadingCalls w.trace a.ref + (k + 1) by omega])
      (by omega)
    simp only [waitForAuthenticatorToLoad, waitStart, waitResume, callIsLoading_eq, h0,
      Bool.not_true, Bool.false_eq_true, if_false, hp]
    simp [World.emit, List.replicate_succ]

theorem waitForAuthenticatorToLoad_pending (a : Authenticator) (w : World) (ticks : Nat)
    (hj : ∀ j, j < ticks + 1 → a.isLoading (loadingCalls w.trace a.ref + j) = true) :
    waitForAuthenticatorToLoad a ticks w =
      (false, ticks,
        { w with trace := w.trace ++ List.replicate (ticks + 1) (Event.isLoading a.ref true) }) := by
  have h0 : a.isLoading (loadingCalls w.trace a.ref) = true := by simpa using hj 0 (by omega)
  have hn : loadingCalls (w.emit (.isLoading a.ref true)).trace a.ref
      = loadingCalls w.trace a.ref + 1 := loadingCalls_emit _ _ _
  have hp := pollInterval_pending a ticks (w.emit (.isLoading a.ref true))
    (by
      intro j hlt
      rw [hn]
      have := hj (j + 1) (by omega)
      rwa [show loadingCalls w.trace a.ref + 1 + j = loadingCalls w.trace a.ref + (j + 1) by omega])
  simp only [waitForAuthenticatorToLoad, waitStart, waitResume, callIsLoading_eq, h0,
    Bool.not_true, Bool.false_eq_true, if_false, hp]
  simp [World.emit, List.replicate_succ]

theorem World.setItem_trace (w : World) (k v : String) : (w.setItem k v).trace = w.trace := rfl

/-- The world in which `loginUser` starts to wait: expiration and authenticator
name are stored. -/
theorem loginUser_eq_wait (self : UALJs) (ticks : Nat) (w : World) (now : Nat)
    (a : Authenticator) (ac : Option String) (w0 : World)
    (hw0 : w0 = (w.setItem SESSION_EXPIRATION_KEY
              (dateToString (invalidateAt w.timeZone now a.shouldInvalidateAfter))).setItem
              SESSION_AUTHENTICATOR_KEY a.name) :
    loginUser self ticks w now (some a) ac =
      (if (waitForAuthenticatorToLoad a ticks w0).1
       then (loginUserBody { self with activeAuthenticator := some a } a ac
              (waitForAuthenticatorToLoad a ticks w0).2.2).1
       else Outcome.pending,
       { self with activeAuthenticator := some a },
       if (waitForAuthenticatorToLoad a ticks w0).1
       then (loginUserBody { self with activeAuthenticator := some a } a ac
              (waitForAuthenticatorToLoad a ticks w0).2.2).2
       else (waitForAuthenticatorToLoad a ticks w0).2.2) := by
  subst hw0
  simp only [loginUser, loginUserStart_some, loginUserResume, waitForAuthenticatorToLoad,
    waitStart, callIsLoading_eq, World.setItem_trace]
  generalize waitResume a ticks _ _ = r
  cases r.1 <;> rfl

/-! ## The `try` body of `loginUser` -/

theorem loginUserBody_ok (self : UALJs) (a : Authenticator) (ac : Option String) (w : World)
    (users : List User) (h : a.login (orUndefined ac) = .ok users) :
    loginUserBody self a ac w =
      loginUserFinish self
        ((if truthy ac then
            (w.emit (.login a.ref (orUndefined ac))).setItem SESSION_ACCOUNT_NAME_KEY (ac.getD "")
          else w.emit (.login a.ref (orUndefined ac))).emit (.userCallbackHandler users)) := by
  unfold loginUserBody
  cases ht : truthy ac
  · have ho : orUndefined ac = none := by simp [orUndefined, ht]
    rw [ho] at h
    simp only [Bool.false_eq_true, if_false, h, ho]
  · have ho : orUndefined ac = ac := orUndefined_of_truthy ac ht
    rw [ho] at h
    simp only [if_true, h, ho]

theorem loginUserBody_error (self : UALJs) (a : Authenticator) (ac : Option String) (w : World)
    (e : JsValue) (h : a.login (orUndefined ac) = .error e) :
    loginUserBody self a ac w = loginUserCatch e (w.emit (.login a.ref (orUndefined ac))) := by
  unfold loginUserBody
  cases ht : truthy ac
  · have ho : orUndefined ac = none := by simp [orUndefined, ht]
    rw [ho] at h
    simp only [Bool.false_eq_true, if_false, h, ho]
  · have ho : orUndefined ac = ac := orUndefined_of_truthy ac ht
    rw [ho] at h
    simp only [if_true, h, ho]

theorem loginUserCatch_trace (e : JsValue) (w : World) :
    ∃ tail, (loginUserCatch e w).2.trace = w.trace ++ tail ∧
      (∀ r x, Event.login r x ∉ tail) ∧ callbackCalls tail = [] ∧
      (∀ r b, Event.isLoading r b ∉ tail) := by
  cases e with
  | undefined => exact ⟨[.consoleError "Error" .undefined], rfl, by simp, rfl, by simp⟩
  | null => exact ⟨[.consoleError "Error" .null], rfl, by simp, rfl, by simp⟩
  | str s =>
    exact ⟨[.consoleError "Error" (.str s), .consoleError "Error cause" (.str "")],
      by simp [loginUserCatch, clearStorageKeys_trace, World.emit], by simp, rfl, by simp⟩
  | typeError s =>
    exact ⟨[.consoleError "Error" (.typeError s), .consoleError "Error cause" (.str "")],
      by simp [loginUserCatch, clearStorageKeys_trace, World.emit], by simp, rfl, by simp⟩
  | error m c =>
    cases c with
    | none =>
      exact ⟨[.consoleError "Error" (.error m none), .consoleError "Error cause" (.str "")],
        by simp [loginUserCatch, clearStorageKeys_trace, World.emit], by simp, rfl, by simp⟩
    | some c =>
      exact ⟨[.consoleError "Error" (.error m (some c)), .consoleError "Error cause" (.str c)],
        by simp [loginUserCatch, clearStorageKeys_trace, World.emit], by simp, rfl, by simp⟩

theorem loginUserFinish_trace (self : UALJs) (w : World) :
    ∃ tail, (loginUserFinish self w).2.trace = w.trace ++ tail ∧
      (∀ r x, Event.login r x ∉ tail) ∧ callbackCalls tail = [] ∧
      (∀ r b, Event.isLoading r b ∉ tail) := by
  unfold loginUserFinish
  cases self.isAutologin with
  | true => exact ⟨[], by simp, by simp, rfl, by simp⟩
  | false =>
    cases self.dom with
    | none => exact ⟨[], by simp, by simp, rfl, by simp⟩
    | some d => exact ⟨[.domReset], by simp [World.emit], by simp, rfl, by simp⟩

/-- The body makes exactly one `login` call, as its first call: on `a`, with
the account name when that is truthy and without argument otherwise. -/
theorem loginUserBody_trace (self : UALJs) (a : Authenticator) (ac : Option String) (w : World) :
    ∃ tail, (loginUserBody self a ac w).2.trace
        = w.trace ++ Event.login a.ref (orUndefined ac) :: tail ∧
      (∀ r x, Event.login r x ∉ tail) ∧ (∀ r b, Event.isLoading r b ∉ tail) := by
  cases hl : a.login (orUndefined ac) with
  | error e =>
    rw [loginUserBody_error self a ac w e hl]
    obtain ⟨tail, ht, hn, _, hi⟩ := loginUserCatch_trace e
      (w.emit (.login a.ref (orUndefined ac)))
    refine ⟨tail, ?_, hn, ?_⟩
    · rw [ht]
      simp [World.emit]
    · exact hi
  | ok users =>
    rw [loginUserBody_ok self a ac w users hl]
    obtain ⟨tail, ht, hn, _, hi⟩ := loginUserFinish_trace self
      ((if truthy ac then
            (w.emit (.login a.ref (orUndefined ac))).setItem SESSION_ACCOUNT_NAME_KEY (ac.getD "")
          else w.emit (.login a.ref (orUndefined ac))).emit (.userCallbackHandler users))
    refine ⟨Event.userCallbackHandler users :: tail, ?_, ?_, ?_⟩
    · rw [ht]
      cases truthy ac <;> simp [World.emit, World.setItem]
    · intro r x hx
      rcases List.mem_cons.mp hx with h | h
      · exact Event.noConfusion h
      · exact hn r x h
    · intro r b hx
      rcases List.mem_cons.mp hx with h | h
      · exact Event.noConfusion h
      · exact hi r b h

/-! ## `login` comes after the readiness poll -/

theorem loginCalls_append (xs ys : List Event) :
    loginCalls (xs ++ ys) = loginCalls xs ++ loginCalls ys := by
  simp [loginCalls, List.filterMap_append]

theorem loginCalls_replicate_isLoading (n r : Nat) (b : Bool) :
    loginCalls (List.replicate n (Event.isLoading r b)) = [] := by
  induction n with
  | zero => rfl
  | succ n ih =>
    rw [List.replicate_succ]
    exact ih

theorem loginCalls_of_no_login (tail : List Event) (h : ∀ r x, Event.login r x ∉ tail) :
    loginCalls tail = [] := by
  induction tail with
  | nil => rfl
  | cons e tail ih =>
    have ht : ∀ r x, Event.login r x ∉ tail := fun r x hm => h r x (List.mem_cons_of_mem e hm)
    cases e with
    | login r x => exact absurd (List.mem_cons_self _ _) (h r x)
    | _ => simpa [loginCalls] using ih ht

theorem loadingCalls_append (xs ys : List Event) (r : Nat) :
    loadingCalls (xs ++ ys) r = loadingCalls xs r + loadingCalls ys r := by
  simp [loadingCalls, List.filter_append]

theorem loadingCalls_replicate (n r : Nat) (b : Bool) :
    loadingCalls (List.replicate n (Event.isLoading r b)) r = n := by
  induction n with
  | zero => rfl
  | succ n ih =>
    rw [List.replicate_succ, show Event.isLoading r b :: List.replicate n (Event.isLoading r b)
      = [Event.isLoading r b] ++ List.replicate n (Event.isLoading r b) from rfl,
      loadingCalls_append, ih]
    simp [loadingCalls]
    omega

theorem loadingCalls_of_no_isLoading (tail : List Event) (ref : Nat)
    (h : ∀ r b, Event.isLoading r b ∉ tail) : loadingCalls tail ref = 0 := by
  induction tail with
  | nil => rfl
  | cons e tail ih =>
    have ht : ∀ r b, Event.isLoading r b ∉ tail := fun r b hm => h r b (List.mem_cons_of_mem e hm)
    cases e with
    | isLoading r b => exact absurd (List.mem_cons_self _ _) (h r b)
    | _ => simpa [loadingCalls] using ih ht

/-- Where a list that starts with the calls `R` and then a `login` call is cut
before some `login` call, the part before the cut holds all of `R`. -/
theorem mem_before_login (R tail pre post : List Event) (f l : Event) (r : Nat)
    (x : Option String) (hf : f ∈ R) (hR : Event.login r x ∉ R)
    (h : R ++ l :: tail = pre ++ Event.login r x :: post) : f ∈ pre := by
  rcases List.append_eq_append_iff.mp h with ⟨a', hpre, _⟩ | ⟨c', hRc, hc⟩
  · rw [hpre]
    exact List.mem_append_left _ hf
  · cases c' with
    | nil =>
      rw [List.append_nil] at hRc
      rw [← hRc]
      exact hf
    | cons e rest =>
      exfalso
      have he : Event.login r x = e := by
        have := congrArg List.head? hc
        simpa using this
      apply hR
      rw [hRc, he]
      exact List.mem_append_right _ (List.mem_cons_self _ _)

/-- The wait either resolves at the first `false` answer or is still pending
after the observed firings, all answers so far being `true`. -/
theorem waitForAuthenticatorToLoad_cases (a : Authenticator) (w : World) (ticks : Nat) :
    (∃ k, k ≤ ticks ∧
      waitForAuthenticatorToLoad a ticks w =
        (true, k, { w with trace := w.trace ++
          (List.replicate k (Event.isLoading a.ref true) ++ [Event.isLoading a.ref false]) })) ∨
    waitForAuthenticatorToLoad a ticks w =
      (false, ticks,
        { w with trace := w.trace ++ List.replicate (ticks + 1) (Event.isLoading a.ref true) }) := by
  by_cases h : ∃ k, k ≤ ticks ∧ a.isLoading (loadingCalls w.trace a.ref + k) = false
  · left
    classical
    refine ⟨Nat.find h, (Nat.find_spec h).1, ?_⟩
    apply waitForAuthenticatorToLoad_resolves a w (Nat.find h) ticks _ (Nat.find_spec h).2
      (Nat.find_spec h).1
    intro j hj
    have hmin := Nat.find_min h hj
    have hle : j ≤ ticks := by
      have := (Nat.find_spec h).1
      omega
    cases hb : a.isLoading (loadingCalls w.trace a.ref + j)
    · exact absurd ⟨hle, hb⟩ hmin
    · rfl
  · right
    apply waitForAuthenticatorToLoad_pending
    intro j hj
    cases hb : a.isLoading (loadingCalls w.trace a.ref + j)
    · exact absurd ⟨j, by omega, hb⟩ h
    · rfl

/-- C8: write `b j` for the answer of the `j`-th `isLoading()` call made from
now on (`b j = a.isLoading (n + j)`, `n` calls having been made before).
(1) If `b k` is the first `false` answer, `waitForAuthenticatorToLoad` resolves
after `k` interval firings and the `k + 1` calls `b 0 .. b k` (so after one call
and no firing when `k = 0`), whatever number of firings `ticks ≥ k` is
observed: nothing is called after it resolved, also not by the rest of
`loginUser`.
(2) If every answer is `true`, the wait is unresolved after any number of
firings, `loginUser` is pending and has made no `login` call.
(3) In every run of `loginUser`, a `login` call has a `false` answer of
`isLoading()` before it. -/
theorem C8_login_waits_for_loading (self : UALJs) (w : World) (now : Nat)
    (a : Authenticator) (ac : Option String) :
    (∀ k ticks : Nat,
      (∀ j, j < k → a.isLoading (loadingCalls w.trace a.ref + j) = true) →
      a.isLoading (loadingCalls w.trace a.ref + k) = false → k ≤ ticks →
      waitForAuthenticatorToLoad a ticks w =
        (true, k, { w with trace := w.trace ++
          (List.replicate k (Event.isLoading a.ref true) ++ [Event.isLoading a.ref false]) }) ∧
      loadingCalls (waitForAuthenticatorToLoad a ticks w).2.2.trace a.ref
        = loadingCalls w.trace a.ref + (k + 1) ∧
      loadingCalls (loginUser self ticks w now (some a) ac).2.2.trace a.ref
        = loadingCalls w.trace a.ref + (k + 1) ∧
      loginCalls (loginUser self ticks w now (some a) ac).2.2.trace
        = loginCalls w.trace ++ [(a.ref, orUndefined ac)]) ∧
    ((∀ j, a.isLoading (loadingCalls w.trace a.ref + j) = true) →
      ∀ ticks : Nat,
        (waitForAuthenticatorToLoad a ticks w).1 = false ∧
        (loginUser self ticks w now (some a) ac).1 = Outcome.pending ∧
        loginCalls (loginUser self ticks w now (some a) ac).2.2.trace = loginCalls w.trace) ∧
    (∀ (ticks : Nat) (pre post : List Event) (r : Nat) (x : Option String),
      (loginUser self ticks w now (some a) ac).2.2.trace
        = w.trace ++ (pre ++ Event.login r x :: post) →
      Event.isLoading a.ref false ∈ pre) := by
  refine ⟨?_, ?_, ?_⟩
  · intro k ticks hj hk ht
    have hw := waitForAuthenticatorToLoad_resolves a w k ticks hj hk ht
    have hw0 := waitForAuthenticatorToLoad_resolves a
      ((w.setItem SESSION_EXPIRATION_KEY
        (dateToString (invalidateAt w.timeZone now a.shouldInvalidateAfter))).setItem
        SESSION_AUTHENTICATOR_KEY a.name) k ticks hj hk ht
    obtain ⟨tail, htr, hnl, hni⟩ := loginUserBody_trace
      { self with activeAuthenticator := some a } a ac
      (waitForAuthenticatorToLoad a ticks
        ((w.setItem SESSION_EXPIRATION_KEY
          (dateToString (invalidateAt w.timeZone now a.shouldInvalidateAfter))).setItem
          SESSION_AUTHENTICATOR_KEY a.name)).2.2
    have hlu := loginUser_eq_wait self ticks w now a ac _ rfl
    rw [hw0] at hlu htr
    simp only [if_true, World.setItem_trace] at hlu htr
    refine ⟨hw, ?_, ?_, ?_⟩
    · rw [hw]
      simp only [loadingCalls_append, loadingCalls_replicate]
      simp [loadingCalls]
    · rw [hlu]
      simp only [htr, loadingCalls_append, loadingCalls_replicate]
      have h1 : loadingCalls (Event.login a.ref (orUndefined ac) :: tail) a.ref = 0 := by
        have : loadingCalls (Event.login a.ref (orUndefined ac) :: tail) a.ref
            = loadingCalls tail a.ref := by simp [loadingCalls]
        rw [this]
        exact loadingCalls_of_no_isLoading tail a.ref hni
      rw [h1]
      simp [loadingCalls]
    · rw [hlu]
      simp only [htr, loginCalls_append, loginCalls_replicate_isLoading]
      have h1 : loginCalls (Event.login a.ref (orUndefined ac) :: tail)
          = [(a.ref, orUndefined ac)] := by
        have : loginCalls (Event.login a.ref (orUndefined ac) :: tail)
            = (a.ref, orUndefined ac) :: loginCalls tail := by simp [loginCalls]
        rw [this, loginCalls_of_no_login tail hnl]
      rw [h1]
      simp [loginCalls]
  · intro hall ticks
    have hw := waitForAuthenticatorToLoad_pending a w ticks (fun j _ => hall j)
    have hw0 := waitForAuthenticatorToLoad_pending a
      ((w.setItem SESSION_EXPIRATION_KEY
        (dateToString (invalidateAt w.timeZone now a.shouldInvalidateAfter))).setItem
        SESSION_AUTHENTICATOR_KEY a.name) ticks (fun j _ => hall j)
    have hlu := loginUser_eq_wait self ticks w now a ac _ rfl
    rw [hw0] at hlu
    simp only [Bool.false_eq_true, if_false, World.setItem_trace] at hlu
    refine ⟨by rw [hw], by rw [hlu], ?_⟩
    rw [hlu]
    simp only [loginCalls_append, loginCalls_replicate_isLoading, List.append_nil]
  · intro ticks pre post r x hsplit
    have hlu := loginUser_eq_wait self ticks w now a ac _ rfl
    rcases waitForAuthenticatorToLoad_cases a
      ((w.setItem SESSION_EXPIRATION_KEY
        (dateToString (invalidateAt w.timeZone now a.shouldInvalidateAfter))).setItem
        SESSION_AUTHENTICATOR_KEY a.name) ticks with ⟨k, _, hw0⟩ | hw0
    · obtain ⟨tail, htr, _, _⟩ := loginUserBody_trace
        { self with activeAuthenticator := some a } a ac
        (waitForAuthenticatorToLoad a ticks
          ((w.setItem SESSION_EXPIRATION_KEY
            (dateToString (invalidateAt w.timeZone now a.shouldInvalidateAfter))).setItem
            SESSION_AUTHENTICATOR_KEY a.name)).2.2
      rw [hw0] at hlu htr
      simp only [if_true, World.setItem_trace] at hlu htr
      rw [hlu] at hsplit
      simp only [htr, List.append_assoc] at hsplit
      have hcut := List.append_cancel_left hsplit
      apply mem_before_login
        (List.replicate k (Event.isLoading a.ref true) ++ [Event.isLoading a.ref false])
        tail pre post (Event.isLoading a.ref false) (Event.login a.ref (orUndefined ac)) r x
      · simp
      · simp
      · simpa [List.append_assoc] using hcut
    · exfalso
      rw [hw0] at hlu
      simp only [Bool.false_eq_true, if_false, World.setItem_trace] at hlu
      rw [hlu] at hsplit
      have hcut := List.append_cancel_left hsplit
      have hmem : Event.login r x ∈ List.replicate (ticks + 1) (Event.isLoading a.ref true) := by
        rw [hcut]
        simp
      exact Event.noConfusion (List.eq_of_mem_replicate hmem)

theorem C8_login_waits_for_loading_witness :
    (∀ j, j < 2 → anchor.isLoading (loadingCalls emptyWorld.trace anchor.ref + j) = true) ∧
    anchor.isLoading (loadingCalls emptyWorld.trace anchor.ref + 2) = false ∧
    (waitForAuthenticatorToLoad anchor 5 emptyWorld).2.1 = 2 ∧
    loadingCalls (waitForAuthenticatorToLoad anchor 5 emptyWorld).2.2.trace anchor.ref = 3 ∧
    (∀ j, stuck.isLoading (loadingCalls emptyWorld.trace stuck.ref + j) = true) ∧
    (loginUser renderedController 7 emptyWorld 5000 (some stuck) none).1 = Outcome.pending :=
  have h := (C8_login_waits_for_loading renderedController emptyWorld 5000 anchor none).1 2 5
    (by decide) (by decide) (by decide)
  have g := (C8_login_waits_for_loading renderedController emptyWorld 5000 stuck none).2.1
    (fun _ => rfl) 7
  ⟨by decide, by decide, by rw [h.1], h.2.1, fun _ => rfl, g.2.1⟩

/-! ## Session resume on a live record -/

theorem orUndefined_idem (x : Option String) : orUndefined (orUndefined x) = orUndefined x := by
  cases h : truthy x
  · have ho : orUndefined x = none := by simp [orUndefined, h]
    rw [ho]
    rfl
  · have ho : orUndefined x = x := orUndefined_of_truthy x h
    rw [ho, ho]

/-- Continuing a `loginUser` call under a controller `self2` gives what
`loginUser` gives on `self2`: the continuation reads only `isAutologin` and
`dom`. -/
theorem loginUserResume_start (self self2 : UALJs) (ticks : Nat) (w : World) (now : Nat)
    (a : Authenticator) (ac : Option String) :
    loginUserResume self2 ticks (loginUserStart self w now (some a) ac).2.1
        (loginUserStart self w now (some a) ac).2.2
      = ((loginUser self2 ticks w now (some a) ac).1,
         (loginUser self2 ticks w now (some a) ac).2.2) := rfl

/-- With first `false` answer at call `k` and at least `k` firings observed,
`loginUser` has made the `k + 1` polls and then its single `login` call. -/
theorem loginUser_trace_resolved (self : UALJs) (w : World) (now : Nat) (a : Authenticator)
    (ac : Option String) (k ticks : Nat)
    (hj : ∀ j, j < k → a.isLoading (loadingCalls w.trace a.ref + j) = true)
    (hk : a.isLoading (loadingCalls w.trace a.ref + k) = false) (ht : k ≤ ticks) :
    ∃ tail, (loginUser self ticks w now (some a) ac).2.2.trace
        = w.trace ++ ((List.replicate k (Event.isLoading a.ref true)
            ++ [Event.isLoading a.ref false]) ++ Event.login a.ref (orUndefined ac) :: tail) ∧
      (∀ r x, Event.login r x ∉ tail) ∧ (∀ r b, Event.isLoading r b ∉ tail) := by
  have hw0 := waitForAuthenticatorToLoad_resolves a
    ((w.setItem SESSION_EXPIRATION_KEY
      (dateToString (invalidateAt w.timeZone now a.shouldInvalidateAfter))).setItem
      SESSION_AUTHENTICATOR_KEY a.name) k ticks hj hk ht
  obtain ⟨tail, htr, hnl, hni⟩ := loginUserBody_trace
    { self with activeAuthenticator := some a } a ac
    (waitForAuthenticatorToLoad a ticks
      ((w.setItem SESSION_EXPIRATION_KEY
        (dateToString (invalidateAt w.timeZone now a.shouldInvalidateAfter))).setItem
        SESSION_AUTHENTICATOR_KEY a.name)).2.2
  have hlu := loginUser_eq_wait self ticks w now a ac _ rfl
  rw [hw0] at hlu htr
  simp only [if_true, World.setItem_trace] at hlu htr
  refine ⟨tail, ?_, hnl, hni⟩
  rw [hlu]
  simp only [htr, List.append_assoc]

theorem loginUser_loginCalls_resolved (self : UALJs) (w : World) (now : Nat) (a : Authenticator)
    (ac : Option String) (k ticks : Nat)
    (hj : ∀ j, j < k → a.isLoading (loadingCalls w.trace a.ref + j) = true)
    (hk : a.isLoading (loadingCalls w.trace a.ref + k) = false) (ht : k ≤ ticks) :
    loginCalls (loginUser self ticks w now (some a) ac).2.2.trace
      = loginCalls w.trace ++ [(a.ref, orUndefined ac)] := by
  obtain ⟨tail, htr, hnl, _⟩ := loginUser_trace_resolved self w now a ac k ticks hj hk ht
  rw [htr]
  simp only [loginCalls_append, loginCalls_replicate_isLoading]
  have h1 : loginCalls (Event.login a.ref (orUndefined ac) :: tail)
      = [(a.ref, orUndefined ac)] := by
    have : loginCalls (Event.login a.ref (orUndefined ac) :: tail)
        = (a.ref, orUndefined ac) :: loginCalls tail := by simp [loginCalls]
    rw [this, loginCalls_of_no_login tail hnl]
  rw [h1]
  simp [loginCalls]

/-- C3: when the stored expiration denotes an instant later than the clock and
the stored authenticator name `n` is the name of some authenticator of the
list, `attemptSessionLogin` leaves a `loginUser` call running on `P`, the first
authenticator of the list named `n` (`authenticators = pre ++ P :: post` with
nobody in `pre` named `n`), with the stored account name when that is present
and non-empty and with no account name otherwise, and sets `P` active.  Once
`P` answers `false` to `isLoading()` (at its call number `k`, within the
firings observed) the calls of `login` made are exactly one: `P.login` with
that argument. -/
theorem C3_resume_logs_in_first_match (self : UALJs) (w : World) (now : Nat)
    (authenticators : List Authenticator) (exp : String) (e : Int) (n : String)
    (hget : w.getItem SESSION_EXPIRATION_KEY = some exp)
    (hparse : dateParse exp = some e) (hlt : (now : Int) < e)
    (hname : w.getItem SESSION_AUTHENTICATOR_KEY = some n)
    (hex : ∃ p, p ∈ authenticators ∧ p.name = n) :
    ∃ (pre : List Authenticator) (P : Authenticator) (post : List Authenticator),
      authenticators = pre ++ P :: post ∧ (∀ q, q ∈ pre → q.name ≠ n) ∧ P.name = n ∧
      (attemptSessionLogin self w now authenticators).2.2
        = some (LoginTask.awaiting P (orUndefined (w.getItem SESSION_ACCOUNT_NAME_KEY))
            (!P.isLoading (loadingCalls w.trace P.ref))) ∧
      (attemptSessionLogin self w now authenticators).1.activeAuthenticator = some P ∧
      (∀ (self2 : UALJs) (k ticks : Nat),
        (∀ j, j < k → P.isLoading (loadingCalls w.trace P.ref + j) = true) →
        P.isLoading (loadingCalls w.trace P.ref + k) = false → k ≤ ticks →
        loginCalls (settle self2 ticks (attemptSessionLogin self w now authenticators).2.1
            (attemptSessionLogin self w now authenticators).2.2).2.trace
          = loginCalls w.trace
            ++ [(P.ref, orUndefined (w.getItem SESSION_ACCOUNT_NAME_KEY))]) := by
  have ht : orUndefined (w.getItem SESSION_EXPIRATION_KEY) = some exp := by
    rw [hget]
    exact orUndefined_of_truthy _ (truthy_of_dateParse exp e hparse)
  have hd : dateLeNow exp now = false := by
    simp [dateLeNow, hparse, hlt]
  have hsome : (authenticators.find?
      (fun authenticator => some authenticator.name == some n)).isSome = true := by
    rw [List.find?_isSome]
    obtain ⟨p, hp, hpn⟩ := hex
    exact ⟨p, hp, by simp [hpn]⟩
  obtain ⟨P, hP⟩ := Option.isSome_iff_exists.mp hsome
  obtain ⟨hPn, pre, post, hsplit, hpre⟩ := List.find?_eq_some.mp hP
  have hr : attemptSessionLogin self w now authenticators =
      ((loginUserStart self w now (some P)
          (orUndefined (w.getItem SESSION_ACCOUNT_NAME_KEY))).1,
       (loginUserStart self w now (some P)
          (orUndefined (w.getItem SESSION_ACCOUNT_NAME_KEY))).2.1,
       some (loginUserStart self w now (some P)
          (orUndefined (w.getItem SESSION_ACCOUNT_NAME_KEY))).2.2) := by
    simp only [attemptSessionLogin, ht, hd, hname, hP, Bool.false_eq_true, if_false]
  refine ⟨pre, P, post, hsplit, ?_, by simpa using hPn, ?_, ?_, ?_⟩
  · intro q hq hqn
    have := hpre q hq
    simp [hqn] at this
  · rw [hr]
    rfl
  · rw [hr]
    rfl
  · intro self2 k ticks hj hk hkt
    rw [hr]
    simp only [settle]
    rw [loginUserResume_start]
    simp only
    rw [loginUser_loginCalls_resolved self2 w now P _ k ticks hj hk hkt, orUndefined_idem]

theorem C3_resume_logs_in_first_match_witness :
    aliceWorld.getItem SESSION_EXPIRATION_KEY = some "T100" ∧
    dateParse "T100" = some 100000 ∧ (((50000 : Nat) : Int) < 100000) ∧
    aliceWorld.getItem SESSION_AUTHENTICATOR_KEY = some "Ledger" ∧
    (∃ p, p ∈ [scatter, ledger] ∧ p.name = "Ledger") ∧
    ∃ (pre : List Authenticator) (P : Authenticator) (post : List Authenticator),
      [scatter, ledger] = pre ++ P :: post ∧ (∀ q, q ∈ pre → q.name ≠ "Ledger") ∧
      P.name = "Ledger" ∧
      (attemptSessionLogin renderedController aliceWorld 50000 [scatter, ledger]).2.2
        = some (LoginTask.awaiting P (orUndefined (aliceWorld.getItem SESSION_ACCOUNT_NAME_KEY))
            (!P.isLoading (loadingCalls aliceWorld.trace P.ref))) ∧
      (attemptSessionLogin renderedController aliceWorld 50000
        [scatter, ledger]).1.activeAuthenticator = some P ∧
      (∀ (self2 : UALJs) (k ticks : Nat),
        (∀ j, j < k → P.isLoading (loadingCalls aliceWorld.trace P.ref + j) = true) →
        P.isLoading (loadingCalls aliceWorld.trace P.ref + k) = false → k ≤ ticks →
        loginCalls (settle self2 ticks
            (attemptSessionLogin renderedController aliceWorld 50000 [scatter, ledger]).2.1
            (attemptSessionLogin renderedController aliceWorld 50000 [scatter, ledger]).2.2).2.trace
          = loginCalls aliceWorld.trace
            ++ [(P.ref, orUndefined (aliceWorld.getItem SESSION_ACCOUNT_NAME_KEY))]) :=
  ⟨by decide, by decide, by decide, by decide,
    ⟨ledger, List.mem_cons_of_mem _ (List.mem_cons_self _ _), rfl⟩,
    C3_resume_logs_in_first_match renderedController aliceWorld 50000 [scatter, ledger]
      "T100" 100000 "Ledger" (by decide) (by decide) (by decide) (by decide)
      ⟨ledger, List.mem_cons_of_mem _ (List.mem_cons_self _ _), rfl⟩⟩

/-! ## The session record written by `loginUser` -/

theorem waitForAuthenticatorToLoad_localStorage (a : Authenticator) (w : World) (ticks : Nat) :
    (waitForAuthenticatorToLoad a ticks w).2.2.localStorage = w.localStorage := by
  rcases waitForAuthenticatorToLoad_cases a w ticks with ⟨k, _, h⟩ | h <;> rw [h]

theorem loginUserFinish_localStorage (self : UALJs) (w : World) :
    (loginUserFinish self w).2.localStorage = w.localStorage := by
  unfold loginUserFinish
  cases self.isAutologin with
  | true => rfl
  | false => cases self.dom <;> rfl

theorem loginUserCatch_not_resolved (e : JsValue) (w : World) :
    (loginUserCatch e w).1 ≠ Outcome.resolved := by
  cases e with
  | error m c => cases c <;> exact fun h => Outcome.noConfusion h
  | _ => exact fun h => Outcome.noConfusion h

/-- When `loginUser` resolved, `login` resolved, and the store is the one in
which the wait began, with the account name added when it is truthy. -/
theorem loginUser_resolved_store (self : UALJs) (ticks : Nat) (w : World) (now : Nat)
    (a : Authenticator) (ac : Option String)
    (h : (loginUser self ticks w now (some a) ac).1 = Outcome.resolved) :
    (∃ users, a.login (orUndefined ac) = .ok users) ∧
    (loginUser self ticks w now (some a) ac).2.2.localStorage =
      (if truthy ac then
        (((w.setItem SESSION_EXPIRATION_KEY
            (dateToString (invalidateAt w.timeZone now a.shouldInvalidateAfter))).setItem
            SESSION_AUTHENTICATOR_KEY a.name).setItem
            SESSION_ACCOUNT_NAME_KEY (ac.getD "")).localStorage
       else
        ((w.setItem SESSION_EXPIRATION_KEY
            (dateToString (invalidateAt w.timeZone now a.shouldInvalidateAfter))).setItem
            SESSION_AUTHENTICATOR_KEY a.name).localStorage) := by
  have hlu := loginUser_eq_wait self ticks w now a ac _ rfl
  have hst := waitForAuthenticatorToLoad_localStorage a
    ((w.setItem SESSION_EXPIRATION_KEY
      (dateToString (invalidateAt w.timeZone now a.shouldInvalidateAfter))).setItem
      SESSION_AUTHENTICATOR_KEY a.name) ticks
  rw [hlu] at h ⊢
  revert h hst
  generalize waitForAuthenticatorToLoad a ticks _ = r
  intro h hst
  cases hr : r.1
  · rw [hr] at h
    exact Outcome.noConfusion h
  · rw [hr] at h
    simp only [if_true] at h ⊢
    cases hl : a.login (orUndefined ac) with
    | error e =>
      rw [loginUserBody_error _ a ac _ e hl] at h
      exact absurd h (loginUserCatch_not_resolved _ _)
    | ok users =>
      refine ⟨⟨users, rfl⟩, ?_⟩
      rw [loginUserBody_ok _ a ac _ users hl, loginUserFinish_localStorage]
      cases truthy ac
      · simp only [Bool.false_eq_true, if_false]
        exact hst
      · simp only [if_true]
        show Storage.setItem r.2.2.localStorage _ _ = Storage.setItem _ _ _
        rw [hst]

theorem loginUser_resolved_getItem (self : UALJs) (ticks : Nat) (w : World) (now : Nat)
    (a : Authenticator) (ac : Option String)
    (h : (loginUser self ticks w now (some a) ac).1 = Outcome.resolved) :
    (loginUser self ticks w now (some a) ac).2.2.getItem SESSION_EXPIRATION_KEY
      = some (dateToString (invalidateAt w.timeZone now a.shouldInvalidateAfter)) ∧
    (loginUser self ticks w now (some a) ac).2.2.getItem SESSION_AUTHENTICATOR_KEY
      = some a.name ∧
    (truthy ac = true →
      (loginUser self ticks w now (some a) ac).2.2.getItem SESSION_ACCOUNT_NAME_KEY = ac) ∧
    (truthy ac = false →
      (loginUser self ticks w now (some a) ac).2.2.getItem SESSION_ACCOUNT_NAME_KEY
        = w.getItem SESSION_ACCOUNT_NAME_KEY) ∧
    (∀ k : String, k ≠ SESSION_EXPIRATION_KEY → k ≠ SESSION_AUTHENTICATOR_KEY →
      k ≠ SESSION_ACCOUNT_NAME_KEY →
      (loginUser self ticks w now (some a) ac).2.2.getItem k = w.getItem k) := by
  have hs := (loginUser_resolved_store self ticks w now a ac h).2
  have hd := session_keys_distinct
  simp only [World.getItem, hs, World.setItem]
  cases ht : truthy ac
  · simp only [Bool.false_eq_true, if_false]
    refine ⟨?_, ?_, ?_, ?_, ?_⟩
    · rw [Storage.getItem_setItem_ne _ _ _ _ hd.1, Storage.getItem_setItem_self]
    · rw [Storage.getItem_setItem_self]
    · intro hc
      exact absurd hc (by simp)
    · intro _
      rw [Storage.getItem_setItem_ne _ _ _ _ hd.2.2.symm,
        Storage.getItem_setItem_ne _ _ _ _ hd.2.1.symm]
    · intro k h1 h2 _
      rw [Storage.getItem_setItem_ne _ _ _ _ h2, Storage.getItem_setItem_ne _ _ _ _ h1]
  · simp only [if_true]
    refine ⟨?_, ?_, ?_, ?_, ?_⟩
    · rw [Storage.getItem_setItem_ne _ _ _ _ hd.2.1, Storage.getItem_setItem_ne _ _ _ _ hd.1,
        Storage.getItem_setItem_self]
    · rw [Storage.getItem_setItem_ne _ _ _ _ hd.2.2, Storage.getItem_setItem_self]
    · intro _
      rw [Storage.getItem_setItem_self]
      cases ac with
      | none => exact Bool.noConfusion ht
      | some s => rfl
    · intro hc
      exact absurd hc (by simp)
    · intro k h1 h2 h3
      rw [Storage.getItem_setItem_ne _ _ _ _ h3, Storage.getItem_setItem_ne _ _ _ _ h2,
        Storage.getItem_setItem_ne _ _ _ _ h1]

theorem attemptSessionLogin_expired (self : UALJs) (w : World) (now : Nat)
    (l : List Authenticator) (exp : String) (e : Int)
    (hget : w.getItem SESSION_EXPIRATION_KEY = some exp)
    (hparse : dateParse exp = some e) (hle : e ≤ (now : Int)) :
    attemptSessionLogin self w now l = (self, { w with localStorage := [] }, none) := by
  have ht : orUndefined (w.getItem SESSION_EXPIRATION_KEY) = some exp := by
    rw [hget]
    exact orUndefined_of_truthy _ (truthy_of_dateParse exp e hparse)
  have hd : dateLeNow exp now = true := by
    simp [dateLeNow, hparse, hle]
  simp only [attemptSessionLogin, ht, hd, if_true, Storage.clear]

theorem attemptSessionLogin_live (self : UALJs) (w : World) (now : Nat)
    (l : List Authenticator) (exp : String) (e : Int)
    (hget : w.getItem SESSION_EXPIRATION_KEY = some exp)
    (hparse : dateParse exp = some e) (hlt : (now : Int) < e) :
    attemptSessionLogin self w now l =
      ((loginUserStart self w now
          (l.find? (fun p => some p.name == w.getItem SESSION_AUTHENTICATOR_KEY))
          (orUndefined (w.getItem SESSION_ACCOUNT_NAME_KEY))).1,
       (loginUserStart self w now
          (l.find? (fun p => some p.name == w.getItem SESSION_AUTHENTICATOR_KEY))
          (orUndefined (w.getItem SESSION_ACCOUNT_NAME_KEY))).2.1,
       some (loginUserStart self w now
          (l.find? (fun p => some p.name == w.getItem SESSION_AUTHENTICATOR_KEY))
          (orUndefined (w.getItem SESSION_ACCOUNT_NAME_KEY))).2.2) := by
  have ht : orUndefined (w.getItem SESSION_EXPIRATION_KEY) = some exp := by
    rw [hget]
    exact orUndefined_of_truthy _ (truthy_of_dateParse exp e hparse)
  have hd : dateLeNow exp now = false := by
    simp [dateLeNow, hparse, hlt]
  simp only [attemptSessionLogin, ht, hd, Bool.false_eq_true, if_false]

theorem attemptSessionLogin_invalid (self : UALJs) (w : World) (now : Nat)
    (l : List Authenticator) (exp : String)
    (hget : w.getItem SESSION_EXPIRATION_KEY = some exp) (hne : exp ≠ "")
    (hparse : dateParse exp = none) :
    (attemptSessionLogin self w now l).2.2.isSome = true := by
  have ht : orUndefined (w.getItem SESSION_EXPIRATION_KEY) = some exp := by
    rw [hget]
    exact orUndefined_of_truthy _ (by simpa [truthy] using hne)
  have hd : dateLeNow exp now = false := by
    simp [dateLeNow, hparse]
  simp only [attemptSessionLogin, ht, hd, Bool.false_eq_true, if_false, Option.isSome_some]

/-! ## The stored expiration -/

/-- What `setSeconds(getSeconds() + S)` makes of the clock: the local time
moved by `S` seconds, read back as an instant and clipped. -/
theorem invalidateAt_eq (z : TimeZone) (now S : Nat) :
    invalidateAt z now S =
      timeClip ((now : Int) + z.offsetAt now + 1000 * S
        - z.offsetOfLocal ((now : Int) + z.offsetAt now + 1000 * S)) := by
  have h : ((now : Int) + z.offsetAt now)
        - ((((now : Int) + z.offsetAt now) / 1000) % 60) * 1000
        + (((((now : Int) + z.offsetAt now) / 1000) % 60) + (S : Int)) * 1000
      = (now : Int) + z.offsetAt now + 1000 * S := by
    ring
  simp only [invalidateAt, setSeconds, getSeconds, h]

/-- When the local time moved by `S` seconds is read back with the offset in
force at the clock, and the result is a valid time value, the date is the
clock plus `S` seconds. -/
theorem invalidateAt_same_offset (z : TimeZone) (now S : Nat)
    (hz : z.offsetOfLocal ((now : Int) + z.offsetAt now + 1000 * S) = z.offsetAt now)
    (hr : (now : Int) + 1000 * S ≤ maxTimeValue) :
    invalidateAt z now S = some ((now : Int) + 1000 * S) := by
  rw [invalidateAt_eq, hz]
  have he : (now : Int) + z.offsetAt now + 1000 * S - z.offsetAt now = (now : Int) + 1000 * S := by
    ring
  rw [he]
  have hlo : -maxTimeValue ≤ (now : Int) + 1000 * S := by
    have : (0 : Int) ≤ (now : Int) + 1000 * S := by positivity
    have hm : (0 : Int) ≤ maxTimeValue := by decide
    omega
  simp only [timeClip, hlo, hr, and_self, if_true]

/-- The stored record of a login at the whole second `t` on a host whose zone
offset is the same at `t` and for the local time `S` seconds later, within the
range of dates: the expiration denotes `t + S` seconds, so a resume attempt
before that instant starts a login and one at or after it empties the store. -/
theorem loginUser_expiration_same_offset (self : UALJs) (ticks : Nat) (w : World)
    (t : Nat) (a : Authenticator) (ac : Option String)
    (h : (loginUser self ticks w (1000 * t) (some a) ac).1 = Outcome.resolved)
    (hz : w.timeZone.offsetOfLocal
        (((1000 * t : Nat) : Int) + w.timeZone.offsetAt ((1000 * t : Nat) : Int)
          + 1000 * a.shouldInvalidateAfter)
      = w.timeZone.offsetAt ((1000 * t : Nat) : Int))
    (hr : ((1000 * t : Nat) : Int) + 1000 * a.shouldInvalidateAfter ≤ maxTimeValue) :
    (∃ exp, (loginUser self ticks w (1000 * t) (some a) ac).2.2.getItem SESSION_EXPIRATION_KEY
        = some exp ∧
      dateParse exp = some (((1000 * (t + a.shouldInvalidateAfter) : Nat) : Int))) ∧
    (loginUser self ticks w (1000 * t) (some a) ac).2.2.getItem SESSION_AUTHENTICATOR_KEY
      = some a.name ∧
    (∀ (self2 : UALJs) (now2 : Nat) (l : List Authenticator),
      now2 < 1000 * (t + a.shouldInvalidateAfter) →
      (attemptSessionLogin self2 (loginUser self ticks w (1000 * t) (some a) ac).2.2
        now2 l).2.2.isSome = true) ∧
    (∀ (self2 : UALJs) (now2 : Nat) (l : List Authenticator),
      1000 * (t + a.shouldInvalidateAfter) ≤ now2 →
      attemptSessionLogin self2 (loginUser self ticks w (1000 * t) (some a) ac).2.2 now2 l =
        (self2, { (loginUser self ticks w (1000 * t) (some a) ac).2.2 with localStorage := [] },
          none)) := by
  have hg := loginUser_resolved_getItem self ticks w (1000 * t) a ac h
  have hp : dateParse (dateToString (invalidateAt w.timeZone (1000 * t) a.shouldInvalidateAfter))
      = some (((1000 * (t + a.shouldInvalidateAfter) : Nat) : Int)) := by
    rw [invalidateAt_same_offset _ _ _ hz hr, dateParse_dateToString]
    congr 1
    push_cast
    omega
  refine ⟨⟨_, hg.1, hp⟩, hg.2.1, ?_, ?_⟩
  · intro self2 now2 l hlt
    rw [attemptSessionLogin_live self2 _ now2 l _ _ hg.1 hp (by exact_mod_cast hlt)]
    rfl
  · intro self2 now2 l hle
    exact attemptSessionLogin_expired self2 _ now2 l _ _ hg.1 hp (by exact_mod_cast hle)

/-- C4 fails on the code across a change of zone offset.  On a New York host
the login happens at second `t = 1793511000` (01:30 local, summer time, half an
hour before the clocks go back) on an authenticator with a window of
`S = 3600` seconds.  `setSeconds(getSeconds() + 3600)` yields the local time
02:30, which is winter time, so the stored expiration denotes `t + 7200`
seconds, not `t + S`; a resume attempt at the instant `t + S` still finds the
session live and starts a login. -/
theorem C4_expiration_shifted_by_zone_change :
    hourly.shouldInvalidateAfter = 3600 ∧
    (loginUser renderedController 0 newYorkWorld (1000 * 1793511000) (some hourly) none).1
      = Outcome.resolved ∧
    (∃ exp,
      (loginUser renderedController 0 newYorkWorld (1000 * 1793511000) (some hourly)
        none).2.2.getItem SESSION_EXPIRATION_KEY = some exp ∧
      dateParse exp = some (1000 * (1793511000 + 7200)) ∧
      dateParse exp ≠ some (1000 * (1793511000 + 3600))) ∧
    (∀ (self2 : UALJs) (l : List Authenticator),
      (attemptSessionLogin self2
        (loginUser renderedController 0 newYorkWorld (1000 * 1793511000) (some hourly) none).2.2
        (1000 * (1793511000 + 3600)) l).2.2.isSome = true) := by
  have hres : (loginUser renderedController 0 newYorkWorld (1000 * 1793511000) (some hourly)
      none).1 = Outcome.resolved := by decide
  have hg := loginUser_resolved_getItem renderedController 0 newYorkWorld (1000 * 1793511000)
    hourly none hres
  have hi : invalidateAt newYorkWorld.timeZone (1000 * 1793511000) hourly.shouldInvalidateAfter
      = some 1793518200000 := by
    rw [invalidateAt_eq]
    decide
  have hp : dateParse (dateToString (invalidateAt newYorkWorld.timeZone (1000 * 1793511000)
      hourly.shouldInvalidateAfter)) = some (1000 * (1793511000 + 7200)) := by
    rw [hi, dateParse_dateToString]
    decide
  refine ⟨rfl, hres, ⟨_, hg.1, hp, ?_⟩, ?_⟩
  · rw [hp]
    decide
  · intro self2 l
    rw [attemptSessionLogin_live self2 _ _ l _ _ hg.1 hp (by decide)]
    rfl

/-- Beyond the range of dates: with a window that reaches past the last valid
time value the stored expiration is the text of an invalid date, which never
compares as expired, so every later resume attempt starts a login. -/
theorem loginUser_invalid_date_beyond_range :
    (loginUser renderedController 0 emptyWorld 0 (some aeon) none).1 = Outcome.resolved ∧
    (loginUser renderedController 0 emptyWorld 0 (some aeon) none).2.2.getItem
      SESSION_EXPIRATION_KEY = some "Invalid Date" ∧
    (∀ (self2 : UALJs) (now2 : Nat) (l : List Authenticator),
      (attemptSessionLogin self2 (loginUser renderedController 0 emptyWorld 0 (some aeon) none).2.2
        now2 l).2.2.isSome = true) := by
  have hres : (loginUser renderedController 0 emptyWorld 0 (some aeon) none).1
      = Outcome.resolved := by decide
  have hg := loginUser_resolved_getItem renderedController 0 emptyWorld 0 aeon none hres
  have hi : invalidateAt emptyWorld.timeZone 0 aeon.shouldInvalidateAfter = none := by
    rw [invalidateAt_eq]
    decide
  have he : (loginUser renderedController 0 emptyWorld 0 (some aeon) none).2.2.getItem
      SESSION_EXPIRATION_KEY = some "Invalid Date" := by
    rw [hg.1, hi]
    rfl
  refine ⟨hres, he, ?_⟩
  intro self2 now2 l
  exact attemptSessionLogin_invalid self2 _ now2 l _ he (by decide) (by decide)

/-- C9 fails on the code when a login without account name follows a login
with one.  The store holds the record of an earlier login on `ledger` with the
account name "alice"; `loginUser(scatter)` without account name resolves and
writes the authenticator name "Scatter", but `ual-session-account-name` is
still "alice" instead of absent: the record is not overwritten as a whole, and
the next resume hands "alice" to `scatter`. -/
theorem C9_stale_account_name_kept :
    aliceWorld.getItem SESSION_AUTHENTICATOR_KEY = some "Ledger" ∧
    aliceWorld.getItem SESSION_ACCOUNT_NAME_KEY = some "alice" ∧
    (loginUser renderedController 0 aliceWorld 5000 (some scatter) none).1
      = Outcome.resolved ∧
    (loginUser renderedController 0 aliceWorld 5000 (some scatter) none).2.2.getItem
      SESSION_AUTHENTICATOR_KEY = some "Scatter" ∧
    (loginUser renderedController 0 aliceWorld 5000 (some scatter) none).2.2.getItem
      SESSION_ACCOUNT_NAME_KEY = some "alice" ∧
    (loginUser renderedController 0 aliceWorld 5000 (some scatter) none).2.2.getItem
      SESSION_ACCOUNT_NAME_KEY ≠ none ∧
    loginCalls (settle renderedController 0
      (attemptSessionLogin renderedController
        (loginUser renderedController 0 aliceWorld 5000 (some scatter) none).2.2
        6000 [scatter, ledger]).2.1
      (attemptSessionLogin renderedController
        (loginUser renderedController 0 aliceWorld 5000 (some scatter) none).2.2
        6000 [scatter, ledger]).2.2).2.trace
      = [(scatter.ref, none), (scatter.ref, some "alice")] := by
  have hres : (loginUser renderedController 0 aliceWorld 5000 (some scatter) none).1
      = Outcome.resolved := by decide
  have hg := loginUser_resolved_getItem renderedController 0 aliceWorld 5000 scatter none hres
  have hi : invalidateAt aliceWorld.timeZone 5000 scatter.shouldInvalidateAfter
      = some 65000 := by
    rw [invalidateAt_eq]
    decide
  have hp : dateParse (dateToString (invalidateAt aliceWorld.timeZone 5000
      scatter.shouldInvalidateAfter)) = some 65000 := by
    rw [hi, dateParse_dateToString]
    decide
  refine ⟨by decide, by decide, hres, by decide, by decide, by decide, ?_⟩
  rw [attemptSessionLogin_live renderedController _ 6000 [scatter, ledger] _ _ hg.1 hp
    (by decide)]
  decide

/-! ## `loginUser` on an authenticator that is loaded -/

/-- On an authenticator that answers `false` to the first `isLoading()`,
`loginUser` is the `try` body run right after that one call. -/
theorem loginUser_not_loading (self : UALJs) (ticks : Nat) (w : World) (now : Nat)
    (a : Authenticator) (ac : Option String)
    (h : a.isLoading (loadingCalls w.trace a.ref) = false) :
    loginUser self ticks w now (some a) ac =
      ((loginUserBody { self with activeAuthenticator := some a } a ac
          (((w.setItem SESSION_EXPIRATION_KEY
              (dateToString (invalidateAt w.timeZone now a.shouldInvalidateAfter))).setItem
              SESSION_AUTHENTICATOR_KEY a.name).emit (.isLoading a.ref false))).1,
       { self with activeAuthenticator := some a },
       (loginUserBody { self with activeAuthenticator := some a } a ac
          (((w.setItem SESSION_EXPIRATION_KEY
              (dateToString (invalidateAt w.timeZone now a.shouldInvalidateAfter))).setItem
              SESSION_AUTHENTICATOR_KEY a.name).emit (.isLoading a.ref false))).2) := by
  have hw0 := waitForAuthenticatorToLoad_resolves a
    ((w.setItem SESSION_EXPIRATION_KEY
      (dateToString (invalidateAt w.timeZone now a.shouldInvalidateAfter))).setItem
      SESSION_AUTHENTICATOR_KEY a.name) 0 ticks (fun j hj => absurd hj (Nat.not_lt_zero j))
    (by simpa using h) (Nat.zero_le _)
  have hlu := loginUser_eq_wait self ticks w now a ac _ rfl
  rw [hw0] at hlu
  simp only [if_true, List.replicate_zero, List.nil_append] at hlu
  rw [hlu]
  rfl

/-- The `catch` clause on a reason that is neither `undefined` nor `null`: the
keys are cleared and the reason is thrown again. -/
theorem loginUserCatch_defined (e : JsValue) (w : World)
    (h1 : e ≠ JsValue.undefined) (h2 : e ≠ JsValue.null) :
    (loginUserCatch e w).1 = Outcome.rejected e ∧
    (loginUserCatch e w).2.getItem SESSION_EXPIRATION_KEY = none ∧
    (loginUserCatch e w).2.getItem SESSION_AUTHENTICATOR_KEY = none ∧
    (loginUserCatch e w).2.getItem SESSION_ACCOUNT_NAME_KEY = none ∧
    callbackCalls (loginUserCatch e w).2.trace = callbackCalls w.trace := by
  cases e with
  | undefined => exact absurd rfl h1
  | null => exact absurd rfl h2
  | str s =>
    exact ⟨rfl, clearStorageKeys_expiration _, clearStorageKeys_authenticator _,
      clearStorageKeys_accountName _, by
        simp [loginUserCatch, clearStorageKeys_trace, World.emit, callbackCalls]⟩
  | typeError s =>
    exact ⟨rfl, clearStorageKeys_expiration _, clearStorageKeys_authenticator _,
      clearStorageKeys_accountName _, by
        simp [loginUserCatch, clearStorageKeys_trace, World.emit, callbackCalls]⟩
  | error m c =>
    cases c with
    | none =>
      exact ⟨rfl, clearStorageKeys_expiration _, clearStorageKeys_authenticator _,
        clearStorageKeys_accountName _, by
          simp [loginUserCatch, clearStorageKeys_trace, World.emit, callbackCalls]⟩
    | some c =>
      exact ⟨rfl, clearStorageKeys_expiration _, clearStorageKeys_authenticator _,
        clearStorageKeys_accountName _, by
          simp [loginUserCatch, clearStorageKeys_trace, World.emit, callbackCalls]⟩

/-- Rollback of `loginUser` when `login` rejects with a reason that is neither
`undefined` nor `null`: the promise is rejected with that reason, the three
session keys are absent and the user callback has not been called. -/
theorem loginUser_rollback (self : UALJs) (ticks : Nat) (w : World) (now : Nat)
    (a : Authenticator) (ac : Option String) (e : JsValue)
    (hload : a.isLoading (loadingCalls w.trace a.ref) = false)
    (hrej : a.login (orUndefined ac) = .error e)
    (h1 : e ≠ JsValue.undefined) (h2 : e ≠ JsValue.null) :
    (loginUser self ticks w now (some a) ac).1 = Outcome.rejected e ∧
    (loginUser self ticks w now (some a) ac).2.2.getItem SESSION_EXPIRATION_KEY = none ∧
    (loginUser self ticks w now (some a) ac).2.2.getItem SESSION_AUTHENTICATOR_KEY = none ∧
    (loginUser self ticks w now (some a) ac).2.2.getItem SESSION_ACCOUNT_NAME_KEY = none ∧
    callbackCalls (loginUser self ticks w now (some a) ac).2.2.trace = callbackCalls w.trace := by
  rw [loginUser_not_loading self ticks w now a ac hload]
  simp only [loginUserBody_error _ a ac _ e hrej]
  obtain ⟨c1, c2, c3, c4, c5⟩ := loginUserCatch_defined e
    ((((w.setItem SESSION_EXPIRATION_KEY
      (dateToString (invalidateAt w.timeZone now a.shouldInvalidateAfter))).setItem
      SESSION_AUTHENTICATOR_KEY a.name).emit (.isLoading a.ref false)).emit
      (.login a.ref (orUndefined ac))) h1 h2
  refine ⟨c1, c2, c3, c4, ?_⟩
  rw [c5]
  simp [World.emit, World.setItem, callbackCalls, List.filterMap_append]

/-- Success of `loginUser` on a controller that is in an auto-login flow or has
a renderer: the user callback is called once with the users, the renderer is
reset exactly when the auto-login flag is off, and the promise resolves. -/
theorem loginUser_success (self : UALJs) (ticks : Nat) (w : World) (now : Nat)
    (a : Authenticator) (ac : Option String) (users : List User)
    (hload : a.isLoading (loadingCalls w.trace a.ref) = false)
    (hok : a.login (orUndefined ac) = .ok users)
    (hdom : self.isAutologin = true ∨ self.dom.isSome = true) :
    (loginUser self ticks w now (some a) ac).1 = Outcome.resolved ∧
    callbackCalls (loginUser self ticks w now (some a) ac).2.2.trace
      = callbackCalls w.trace ++ [users] ∧
    resetCalls (loginUser self ticks w now (some a) ac).2.2.trace
      = resetCalls w.trace + (if self.isAutologin then 0 else 1) := by
  rw [loginUser_not_loading self ticks w now a ac hload]
  simp only [loginUserBody_ok _ a ac _ users hok]
  cases hA : self.isAutologin with
  | true =>
    cases truthy ac <;>
      simp [loginUserFinish, hA, World.emit, World.setItem, callbackCalls, resetCalls,
        List.filterMap_append, List.filter_append]
  | false =>
    rw [hA] at hdom
    cases hD : self.dom with
    | none =>
      rw [hD] at hdom
      simp at hdom
    | some d =>
      cases truthy ac <;>
        simp [loginUserFinish, hA, hD, World.emit, World.setItem, callbackCalls, resetCalls,
          List.filterMap_append, List.filter_append]

/-! ## Two defects of `loginUser` -/

/-- C1 fails on the code when the rejection reason is `undefined`: `lynx` is
loaded and its `login()` rejects with `undefined`; the `catch` clause logs the
reason and then reads `e.cause`, which throws a type error before
`clearStorageKeys()` runs.  `loginUser` is rejected with that type error, not
with the reason of `login`, and the expiration and authenticator keys written
at the start stay in the store. -/
theorem C1_rollback_skipped_on_undefined_reason :
    lynx.isLoading (loadingCalls emptyWorld.trace lynx.ref) = false ∧
    lynx.login none = .error JsValue.undefined ∧
    (loginUser renderedController 0 emptyWorld 5000 (some lynx) none).1
      = Outcome.rejected (JsValue.typeError "Cannot read properties of undefined") ∧
    (loginUser renderedController 0 emptyWorld 5000 (some lynx) none).1
      ≠ Outcome.rejected JsValue.undefined ∧
    (loginUser renderedController 0 emptyWorld 5000 (some lynx) none).2.2.getItem
      SESSION_AUTHENTICATOR_KEY = some "Lynx" ∧
    (loginUser renderedController 0 emptyWorld 5000 (some lynx) none).2.2.getItem
      SESSION_EXPIRATION_KEY ≠ none ∧
    (loginUser renderedController 0 emptyWorld 5000 (some lynx) none).2.2.trace
      = [Event.isLoading 3 false, Event.login 3 none,
         Event.consoleError "Error" JsValue.undefined] :=
  ⟨by decide, rfl, by decide, by decide, by decide, by decide, by decide⟩

/-- C10 fails on the code for a controller on which `init()` was never called:
`scatter` is loaded and its `login()` resolves with one user; on the controller
fresh from the constructor the callback is called once with that user, then
`this.dom.reset()` is a type error on the missing renderer, so `loginUser` is
rejected and no renderer is reset although the auto-login flag is off. -/
theorem C10_login_without_renderer_rejects :
    (UALJs.construct none [scatter] none).isAutologin = false ∧
    (UALJs.construct none [scatter] none).dom = none ∧
    scatter.isLoading (loadingCalls emptyWorld.trace scatter.ref) = false ∧
    scatter.login none = .ok ["alice"] ∧
    (loginUser (UALJs.construct none [scatter] none) 0 emptyWorld 5000 (some scatter) none).1
      = Outcome.rejected (JsValue.typeError "Cannot read properties of undefined") ∧
    callbackCalls
      (loginUser (UALJs.construct none [scatter] none) 0 emptyWorld 5000 (some scatter)
        none).2.2.trace = [["alice"]] ∧
    resetCalls
      (loginUser (UALJs.construct none [scatter] none) 0 emptyWorld 5000 (some scatter)
        none).2.2.trace = 0 :=
  ⟨rfl, rfl, by decide, rfl, by decide, by decide, by decide⟩

end UALRenderer
